import Mathlib

/-!
Verification of the n8n deployment orchestration engine (`setup.py`).

The Python source is shallowly embedded: each relevant routine is translated
into an executable Lean definition over explicit state, and the specification
claims are settled as theorems about those definitions.  External processes
(openssl, terraform, kubectl, helm) are modelled by their observable
inputs/outputs, which the Python code consumes as plain data.
-/

namespace N8n

/-! ### String helpers mirroring the Python string operations used in `setup.py` -/

/-- `s.count('.')` from Python. -/
def dotCount (s : String) : Nat := s.data.count '.'

/-- `s.endswith(t)` from Python. -/
def pyEndsWith (s t : String) : Bool := t.data.isSuffixOf s.data

/-- `s[1:]` from Python (drop the first character). -/
def pyDropOne (s : String) : String := String.mk (s.data.drop 1)

/-- Number of labels of a DNS name, i.e. `len(s.split('.'))`:
one more than the number of dots. -/
def labelCount (s : String) : Nat := dotCount s + 1

/-! ### Certificate Chain Validator (`CertificateValidator.validate_certificate_chain`)

The openssl invocations are external: the modulus strings, the parsed
not-after instant and the SAN/CN name sets extracted from the certificate text
are the data the Python code branches on, so they form the input record. -/

/-- The data `validate_certificate_chain` extracts from openssl's output. -/
structure CertInfo where
  certModulus : String
  keyModulus : String
  notAfter : Int
  notAfterStr : String
  sans : List String
  cn : Option String

/-- `valid_domain.startswith('*.')` from the source (line 661). -/
def isWildcardPat (s : String) : Bool :=
  match s.data with
  | '*' :: '.' :: _ => true
  | _ => false

/-- The wildcard test of line 662:
`domain.endswith(valid_domain[1:]) and domain.count('.') == valid_domain.count('.')`. -/
def wildcardAuthorizes (pat dom : String) : Bool :=
  pyEndsWith dom (pyDropOne pat) && (dotCount dom == dotCount pat)

/-- The candidate loop of lines 660-665: first match wins, `False` after the loop. -/
def domainAuthorized : List String → String → Bool
  | [], _ => false
  | v :: rest, dom =>
    if isWildcardPat v then
      if wildcardAuthorizes v dom then true else domainAuthorized rest dom
    else if dom == v then true
    else domainAuthorized rest dom

/-- `set(sans + ([cn] if cn else []))` of line 657 (as a list; the boolean
outcome of the candidate loop does not depend on order or duplication). -/
def candidateNames (c : CertInfo) : List String :=
  c.sans ++ (match c.cn with | some n => [n] | none => [])

/-- `', '.join(...)` from Python. -/
def joinComma (l : List String) : String := String.intercalate ", " l

/-- `CertificateValidator.validate_certificate_chain` (lines 606-667), with the
three openssl-derived inputs abstracted into `CertInfo` and the current clock
instant passed explicitly. -/
def validate_certificate_chain (c : CertInfo) (now : Int) (domain : String) :
    Bool × String :=
  if c.certModulus ≠ c.keyModulus then
    (false, "Certificate and private key do not match.")
  else if c.notAfter < now then
    (false, "Certificate expired on " ++ c.notAfterStr ++ ".")
  else if domainAuthorized (candidateNames c) domain then
    (true, "Certificate chain is valid.")
  else
    (false, "Certificate is not valid for domain '" ++ domain ++
      "'. Valid domains: " ++ joinComma (candidateNames c))

/-! #### Facts about the validator -/

theorem str_append_data (a b : String) : (a ++ b).data = a.data ++ b.data := rfl

theorem dotCount_wildcard (sfx : String) :
    dotCount ("*." ++ sfx) = dotCount sfx + 1 := by
  unfold dotCount
  rw [str_append_data, List.count_append]
  simp [Nat.add_comm]

theorem pyDropOne_wildcard (sfx : String) :
    pyDropOne ("*." ++ sfx) = "." ++ sfx := by
  unfold pyDropOne
  apply String.ext
  rw [str_append_data, str_append_data]
  rfl

theorem nat_beq_succ_succ (a b : Nat) : ((a + 1) == (b + 1)) = (a == b) := by
  by_cases h : a = b <;> simp [h]

/-- A certificate whose candidate set contains `*.<suffix>` authorizes a
hostname via that wildcard exactly when the hostname ends with `.<suffix>`
and has exactly one more label than the suffix.  Concretely, with SAN
`*.example.com` and matching key/expiry, `a.example.com` is accepted and
`a.b.example.com` is rejected. (C3) -/
theorem wildcard_scope :
    (∀ sfx dom : String,
      wildcardAuthorizes ("*." ++ sfx) dom =
        (pyEndsWith dom ("." ++ sfx) && (labelCount dom == labelCount sfx + 1)))
    ∧ (validate_certificate_chain
        ⟨"M", "M", 1, "t", ["*.example.com"], none⟩ 0 "a.example.com").1 = true
    ∧ (validate_certificate_chain
        ⟨"M", "M", 1, "t", ["*.example.com"], none⟩ 0 "a.b.example.com").1 = false := by
  refine ⟨?_, by decide, by decide⟩
  intro sfx dom
  unfold wildcardAuthorizes labelCount
  rw [pyDropOne_wildcard, dotCount_wildcard, nat_beq_succ_succ]

/-- When the certificate-derived and key-derived moduli differ, validation
fails with the key-mismatch message, regardless of clock, hostname, expiry
or names: the key-pair check runs first and short-circuits. (C4) -/
theorem key_mismatch_fails_first (c : CertInfo) (now : Int) (domain : String)
    (h : c.certModulus ≠ c.keyModulus) :
    validate_certificate_chain c now domain =
      (false, "Certificate and private key do not match.") := by
  unfold validate_certificate_chain
  rw [if_pos h]

/-- Witness for C4: a concrete mismatched pair with an expired certificate and
a hostname not covered by any candidate still reports the key mismatch. -/
theorem key_mismatch_fails_first_witness :
    validate_certificate_chain
      ⟨"AAA", "BBB", -5, "Jan 1 00:00:00 2020 GMT", ["other.com"], some "cn.com"⟩
      0 "x.example.com" =
      (false, "Certificate and private key do not match.") :=
  key_mismatch_fails_first _ _ _ (by decide)

/-! ### Readiness poller (`get_loadbalancer_url`, lines 2486-2540)

Each attempt issues two kubectl queries (hostname, then IP); both are
external, so one attempt's observable input is the pair of (return code,
stdout) results, or an exception.  The loop body, the early returns, the
sleeps guarded by `attempt < max_attempts` and the final `None` are embedded
directly; the event trace records the probe/sleep sequence. -/

/-- Result of one `subprocess.run(['kubectl', ...])` call. -/
structure KubectlRes where
  rc : Nat
  out : String

/-- One loop iteration's external input: the two kubectl results, or an
exception raised by either call (caught by the `except` clause). -/
inductive ProbeStep where
  | ok (host ip : KubectlRes)
  | exc

/-- Observable events of the polling loop. -/
inductive PollEvent where
  | probeEv (attempt : Nat)
  | sleepEv (seconds : Nat)
deriving DecidableEq

/-- An attempt yields nothing: exception, or both kubectl results empty/failed
(the `returncode == 0 and stdout.strip()` guards both false). -/
def probeEmpty : ProbeStep → Bool
  | .exc => true
  | .ok host ip =>
    !(host.rc == 0 && host.out.trim != "") && !(ip.rc == 0 && ip.out.trim != "")

/-- The `for attempt in range(1, max_attempts + 1)` loop, structurally
recursive on the number of remaining attempts. -/
def lbGo (probe : Nat → ProbeStep) (maxAttempts delay : Nat) :
    Nat → Nat → Option String × List PollEvent
  | _, 0 => (none, [])
  | attempt, r + 1 =>
    match probe attempt with
    | .ok host ip =>
      if host.rc == 0 && host.out.trim != "" then
        (some host.out.trim, [.probeEv attempt])
      else if ip.rc == 0 && ip.out.trim != "" then
        (some ip.out.trim, [.probeEv attempt])
      else
        let rest := lbGo probe maxAttempts delay (attempt + 1) r
        (rest.1, .probeEv attempt ::
          ((if attempt < maxAttempts then [.sleepEv delay] else []) ++ rest.2))
    | .exc =>
        let rest := lbGo probe maxAttempts delay (attempt + 1) r
        (rest.1, .probeEv attempt ::
          ((if attempt < maxAttempts then [.sleepEv delay] else []) ++ rest.2))

/-- `get_loadbalancer_url(max_attempts, delay)` with the kubectl probes
abstracted as per-attempt inputs. -/
def get_loadbalancer_url (probe : Nat → ProbeStep) (maxAttempts delay : Nat) :
    Option String × List PollEvent :=
  lbGo probe maxAttempts delay 1 maxAttempts

/-- The exhaustion trace: one probe per attempt, a sleep after every attempt
except the last. -/
def exhaustTrace (delay : Nat) : Nat → Nat → List PollEvent
  | _, 0 => []
  | attempt, 1 => [.probeEv attempt]
  | attempt, r + 2 =>
    .probeEv attempt :: .sleepEv delay :: exhaustTrace delay (attempt + 1) (r + 1)

/-- Number of probe events in a trace. -/
def probeCount : List PollEvent → Nat
  | [] => 0
  | .probeEv _ :: t => probeCount t + 1
  | .sleepEv _ :: t => probeCount t

/-- Number of sleep events in a trace. -/
def sleepCount : List PollEvent → Nat
  | [] => 0
  | .probeEv _ :: t => sleepCount t
  | .sleepEv _ :: t => sleepCount t + 1

theorem probeCount_exhaustTrace (delay : Nat) :
    ∀ r attempt, probeCount (exhaustTrace delay attempt r) = r := by
  intro r
  induction r using Nat.strong_induction_on with
  | _ r ih =>
    match r with
    | 0 => intro attempt; rfl
    | 1 => intro attempt; rfl
    | r + 2 =>
      intro attempt
      have h := ih (r + 1) (by omega) (attempt + 1)
      simp only [exhaustTrace, probeCount] at *
      omega

theorem sleepCount_exhaustTrace (delay : Nat) :
    ∀ r attempt, sleepCount (exhaustTrace delay attempt r) = r - 1 := by
  intro r
  induction r using Nat.strong_induction_on with
  | _ r ih =>
    match r with
    | 0 => intro attempt; rfl
    | 1 => intro attempt; rfl
    | r + 2 =>
      intro attempt
      have h := ih (r + 1) (by omega) (attempt + 1)
      simp only [exhaustTrace, sleepCount] at *
      omega

theorem lbGo_exhausts (probe : Nat → ProbeStep) (maxAttempts delay : Nat)
    (hp : ∀ i, probeEmpty (probe i) = true) :
    ∀ r attempt, attempt + r = maxAttempts + 1 →
      lbGo probe maxAttempts delay attempt r = (none, exhaustTrace delay attempt r) := by
  intro r
  induction r using Nat.strong_induction_on with
  | _ r ih =>
    match r with
    | 0 => intro attempt _; rfl
    | 1 =>
      intro attempt hinv
      have ha : attempt = maxAttempts := by omega
      have hpe := hp attempt
      unfold lbGo
      match hps : probe attempt with
      | .exc =>
        simp [exhaustTrace, lbGo, if_neg (by omega : ¬ attempt < maxAttempts)]
      | .ok host ip =>
        rw [hps] at hpe
        simp only [probeEmpty, Bool.and_eq_true, Bool.not_eq_true'] at hpe
        simp [hpe.1, hpe.2, exhaustTrace, lbGo,
          if_neg (by omega : ¬ attempt < maxAttempts)]
    | r + 2 =>
      intro attempt hinv
      have hlt : attempt < maxAttempts := by omega
      have hrest := ih (r + 1) (by omega) (attempt + 1) (by omega)
      have hpe := hp attempt
      unfold lbGo
      match hps : probe attempt with
      | .exc =>
        simp [hrest, exhaustTrace, if_pos hlt]
      | .ok host ip =>
        rw [hps] at hpe
        simp only [probeEmpty, Bool.and_eq_true, Bool.not_eq_true'] at hpe
        simp [hpe.1, hpe.2, hrest, exhaustTrace, if_pos hlt]

/-- A probe that never yields a non-empty result makes `get_loadbalancer_url`
probe exactly `max_attempts` times, sleep between consecutive attempts but not
after the final one (the trace is the exhaustion trace, ending in a probe),
and return `None` without raising. (C7) -/
theorem poller_exhaustion (probe : Nat → ProbeStep) (maxAttempts delay : Nat)
    (hp : ∀ i, probeEmpty (probe i) = true) :
    (get_loadbalancer_url probe maxAttempts delay).1 = none ∧
    (get_loadbalancer_url probe maxAttempts delay).2 = exhaustTrace delay 1 maxAttempts ∧
    probeCount (get_loadbalancer_url probe maxAttempts delay).2 = maxAttempts ∧
    sleepCount (get_loadbalancer_url probe maxAttempts delay).2 = maxAttempts - 1 := by
  have h := lbGo_exhausts probe maxAttempts delay hp maxAttempts 1 (by omega)
  unfold get_loadbalancer_url
  rw [h]
  exact ⟨rfl, rfl, probeCount_exhaustTrace delay maxAttempts 1,
    sleepCount_exhaustTrace delay maxAttempts 1⟩

/-- Witness for C7: the spec's `poll(probe, 3, 0)` scenario with a probe whose
kubectl calls always fail: three probes, two sleeps, `None`. -/
theorem poller_exhaustion_witness :
    (get_loadbalancer_url (fun _ => .ok ⟨1, ""⟩ ⟨1, ""⟩) 3 0).1 = none ∧
    probeCount (get_loadbalancer_url (fun _ => .ok ⟨1, ""⟩ ⟨1, ""⟩) 3 0).2 = 3 ∧
    sleepCount (get_loadbalancer_url (fun _ => .ok ⟨1, ""⟩ ⟨1, ""⟩) 3 0).2 = 2 := by
  have h := poller_exhaustion (fun _ => .ok ⟨1, ""⟩ ⟨1, ""⟩) 3 0 (fun _ => rfl)
  exact ⟨h.1, h.2.2.1, h.2.2.2⟩

/-! ### Environment state store (`restore_state_for_region`, lines 2075-2126)

The terraform directory is a map from file names to file contents.  A content
is either a JSON state whose salient datum is its `resources` list, or an
unparseable blob (on which `json.load` raises, caught by the code).  `copy2`
copies contents verbatim, so byte-identity is content equality. -/

/-- Content of a file in the terraform directory, as `restore_state_for_region`
observes it: a parsed state's resource list, or unparseable bytes. -/
inductive FileData where
  | state (resources : List String)
  | invalid (raw : String)
deriving DecidableEq

/-- `state_data.get('resources')` is truthy; `False` when `json.load` raises. -/
def hasResources : FileData → Bool
  | .state rs => !rs.isEmpty
  | .invalid _ => false

/-- Write (create or overwrite) a file. -/
def setF {α : Type} (fs : String → Option α) (name : String) (v : α) :
    String → Option α :=
  fun n => if n = name then some v else fs n

/-- Snapshot file naming: `terraform.tfstate.<key>.backup`. -/
def mkSnapName (key : String) : String := "terraform.tfstate." ++ key ++ ".backup"

def tfstateName : String := "terraform.tfstate"

/-- `restore_state_for_region(terraform_dir, region)`; `ts` is the value of
`int(time.time())` read when the pre-overwrite backup is taken. -/
def restore_state_for_region (fs : String → Option FileData) (region : String)
    (ts : Nat) : Bool × (String → Option FileData) :=
  match fs (mkSnapName region) with
  | none => (false, fs)
  | some _ =>
    let fs1 :=
      match fs tfstateName with
      | none => fs
      | some live =>
        if hasResources live then setF fs (mkSnapName (toString ts)) live else fs
    match fs1 (mkSnapName region) with
    | some snap => (true, setF fs1 tfstateName snap)
    | none => (true, fs1)

theorem mkSnapName_ne_tfstate (key : String) : mkSnapName key ≠ tfstateName := by
  intro h
  unfold mkSnapName tfstateName at h
  have hl := congrArg String.length h
  rw [String.length_append, String.length_append] at hl
  have h1 : ("terraform.tfstate." : String).length = 18 := rfl
  have h2 : (".backup" : String).length = 7 := rfl
  have h3 : ("terraform.tfstate" : String).length = 17 := rfl
  omega

/-- When the live state holds managed resources (content `A`) and a snapshot
for key `r2` exists, `restore_state_for_region` returns `True`, the live state
becomes the `r2` snapshot's content, and a timestamped snapshot file now holds
`A` — the pre-operation state is preserved before being overwritten. (C5) -/
theorem restore_state_never_loses_data (fs : String → Option FileData)
    (region : String) (ts : Nat) (rs : List String) (snap : FileData)
    (hlive : fs tfstateName = some (.state rs)) (hrs : rs ≠ [])
    (hsnap : fs (mkSnapName region) = some snap)
    (hne : mkSnapName (toString ts) ≠ mkSnapName region) :
    (restore_state_for_region fs region ts).1 = true ∧
    (restore_state_for_region fs region ts).2 tfstateName = some snap ∧
    (restore_state_for_region fs region ts).2 (mkSnapName (toString ts)) =
      some (.state rs) := by
  have hres : hasResources (.state rs) = true := by
    cases rs with
    | nil => exact absurd rfl hrs
    | cons a t => rfl
  have htsne : mkSnapName (toString ts) ≠ tfstateName := mkSnapName_ne_tfstate _
  unfold restore_state_for_region
  simp only [hsnap, hlive, hres, if_pos]
  have hfs1 : setF fs (mkSnapName (toString ts)) (FileData.state rs) (mkSnapName region)
      = some snap := by
    unfold setF
    rw [if_neg (fun h => hne h.symm), hsnap]
  simp only [hfs1]
  refine ⟨trivial, ?_, ?_⟩
  · simp [setF]
  · simp [setF, htsne]

/-- Witness for C5: live state with one resource, a stored `r2` snapshot, and
a numeric timestamp key distinct from `r2`. -/
theorem restore_state_never_loses_data_witness :
    (restore_state_for_region
        (fun n =>
          if n = "terraform.tfstate" then some (.state ["aws_eks_cluster.main"])
          else if n = mkSnapName "r2" then some (.state ["aws_vpc.r2"]) else none)
        "r2" 1700000000).1 = true ∧
    (restore_state_for_region
        (fun n =>
          if n = "terraform.tfstate" then some (.state ["aws_eks_cluster.main"])
          else if n = mkSnapName "r2" then some (.state ["aws_vpc.r2"]) else none)
        "r2" 1700000000).2 tfstateName = some (.state ["aws_vpc.r2"]) ∧
    (restore_state_for_region
        (fun n =>
          if n = "terraform.tfstate" then some (.state ["aws_eks_cluster.main"])
          else if n = mkSnapName "r2" then some (.state ["aws_vpc.r2"]) else none)
        "r2" 1700000000).2 (mkSnapName (toString 1700000000)) =
      some (.state ["aws_eks_cluster.main"]) :=
  restore_state_never_loses_data _ "r2" 1700000000 ["aws_eks_cluster.main"]
    (.state ["aws_vpc.r2"]) (by decide) (by decide) (by decide) (by decide)

/-! ### Deployment configuration record (`AWSDeploymentConfig`)

Fields that `create_terraform_tfvars` writes and `load_existing_configuration`
reads; fields touched by neither function (TLS source, PEM blobs, basic-auth
credentials, letsencrypt settings) are omitted.  `aws_profile`/`aws_region`
are `Optional[str]` in the source. -/

structure DeploymentConfig where
  aws_profile : Option String := none
  aws_region : Option String := none
  cluster_name : String := "n8n-eks-cluster"
  node_instance_types : List String := ["t3.medium"]
  node_desired_size : Int := 1
  node_min_size : Int := 1
  node_max_size : Int := 2
  n8n_namespace : String := "n8n"
  n8n_host : String := ""
  timezone : String := "America/Bahia"
  n8n_encryption_key : String := ""
  n8n_persistence_size : String := "10Gi"
  enable_nginx_ingress : Bool := true
  database_type : String := "sqlite"
  rds_instance_class : String := "db.t3.micro"
  rds_allocated_storage : Int := 20
  rds_multi_az : Bool := false
  enable_basic_auth : Bool := false
deriving DecidableEq

/-! ### The tfvars generator (`FileUpdater.create_terraform_tfvars`, lines 1808-1850) -/

/-- Fuel-bounded decimal-digit extraction (structural recursion so that the
kernel can evaluate it; the fuel in `natRepr` always suffices). -/
def natReprAux : Nat → Nat → List Char
  | 0, _ => []
  | fuel + 1, n =>
    if n < 10 then [Nat.digitChar n]
    else natReprAux fuel (n / 10) ++ [Nat.digitChar (n % 10)]

/-- Decimal digits of a natural number, identical to Python's `str(int)` for
non-negative values. -/
def natRepr (n : Nat) : List Char := natReprAux (n + 1) n

theorem natReprAux_congr :
    ∀ fuel fuel' n : Nat, n < fuel → n < fuel' →
      natReprAux fuel n = natReprAux fuel' n := by
  intro fuel
  induction fuel using Nat.strong_induction_on with
  | _ fuel ih =>
    intro fuel' n hf hf'
    match fuel, fuel', hf, hf' with
    | f + 1, f' + 1, hf, hf' =>
      by_cases h10 : n < 10
      · simp [natReprAux, h10]
      · have hdiv : n / 10 < n := Nat.div_lt_self (by omega) (by omega)
        simp only [natReprAux, h10, if_neg, if_false]
        rw [ih f (by omega) f' (n / 10) (by omega) (by omega)]

/-- The recurrence `natRepr` satisfies. -/
theorem natRepr_eq (n : Nat) :
    natRepr n = if n < 10 then [Nat.digitChar n]
      else natRepr (n / 10) ++ [Nat.digitChar (n % 10)] := by
  by_cases h10 : n < 10
  · simp [natRepr, natReprAux, h10]
  · have hdiv : n / 10 < n := Nat.div_lt_self (by omega) (by omega)
    rw [if_neg h10]
    have hstep : natReprAux (n + 1) n = natReprAux n (n / 10) ++ [Nat.digitChar (n % 10)] := by
      simp [natReprAux, h10]
    unfold natRepr
    rw [hstep, natReprAux_congr n (n / 10 + 1) (n / 10) (by omega) (by omega)]

/-- Python's `str` on an `int` (an f-string `{n}`). -/
def pyIntRepr (n : Int) : String :=
  if n < 0 then String.mk ('-' :: natRepr n.natAbs) else String.mk (natRepr n.natAbs)

/-- The item region of `json.dumps` on a list of strings whose characters need
no JSON escaping (no quote, backslash, control or non-ASCII characters):
`"item"` blocks joined by the default `', '` separator. -/
def itemsChars (l : List String) : List Char :=
  List.intercalate [',', ' '] (l.map (fun s => ('"' :: s.data) ++ ['"']))

/-- `json.dumps` on such a list. -/
def jsonDumpsStrList (l : List String) : String :=
  String.mk ('[' :: (itemsChars l ++ [']']))

/-- An f-string `{v}` on an `Optional[str]`: `str(None)` is `"None"`. -/
def pyFmtOptStr : Option String → String
  | none => "None"
  | some s => s

/-- The source's `"true" if b else "false"`. -/
def pyBoolTf (b : Bool) : String := if b then "true" else "false"

/-- The `lines` list built by `create_terraform_tfvars`, verbatim including
padding and comments, with the conditional RDS block. -/
def tfvarsLines (c : DeploymentConfig) : List String :=
  ["# Auto-generated by setup.py - N8N EKS Infrastructure",
   "aws_profile        = \"" ++ pyFmtOptStr c.aws_profile ++ "\"",
   "region             = \"" ++ pyFmtOptStr c.aws_region ++ "\"",
   "cluster_name       = \"" ++ c.cluster_name ++ "\"",
   "node_instance_types = " ++ jsonDumpsStrList c.node_instance_types,
   "node_desired_size  = " ++ pyIntRepr c.node_desired_size,
   "node_min_size      = " ++ pyIntRepr c.node_min_size,
   "node_max_size      = " ++ pyIntRepr c.node_max_size,
   "n8n_host           = \"" ++ c.n8n_host ++ "\"",
   "timezone           = \"" ++ c.timezone ++ "\"",
   "n8n_encryption_key = \"" ++ c.n8n_encryption_key ++ "\"",
   "n8n_namespace      = \"" ++ c.n8n_namespace ++ "\"",
   "n8n_persistence_size = \"" ++ c.n8n_persistence_size ++ "\"",
   "enable_nginx_ingress = " ++ pyBoolTf c.enable_nginx_ingress,
   "",
   "# Database Configuration",
   "database_type      = \"" ++ c.database_type ++ "\""]
  ++ (if c.database_type == "postgresql" then
      ["rds_instance_class = \"" ++ c.rds_instance_class ++ "\"",
       "rds_allocated_storage = " ++ pyIntRepr c.rds_allocated_storage,
       "rds_multi_az       = " ++ pyBoolTf c.rds_multi_az]
    else [])
  ++ ["",
      "# Basic Authentication Configuration",
      "enable_basic_auth  = " ++ pyBoolTf c.enable_basic_auth,
      ""]

/-- Python's `sep.join(parts)`. -/
def joinWith (sep : List Char) (ls : List String) : String :=
  String.mk (List.intercalate sep (ls.map String.data))

/-- `content = "\n".join(lines)`: the bytes written to `terraform.tfvars`. -/
def tfvarsContent (c : DeploymentConfig) : String :=
  joinWith ['\n'] (tfvarsLines c)

/-! ### Config Artifact Manager (`FileUpdater`, lines 1734-1972)

The terraform directory and the helm chart tree are maps from (relative) file
names to contents.  `tempfile.mkdtemp` is modelled by a counter: each call
yields a fresh backup location; `backups` is the set of backup directories
currently on disk, `backupDir` the manager's `self.backup_dir` pointer.
The `re.sub`-based rewrites of `update_terraform_variables` /
`update_helm_values` delegate to the external regex engine, so the composite
old-content-to-new-content rewrite for the chosen config is a parameter. -/

/-- The backup taken by `create_backup`: the `*.tf` files of the terraform
directory plus the full helm tree (`copytree`). -/
structure ConfigBackup where
  tf : String → Option String
  helm : String → Option String

structure FUState where
  tfDir : String → Option String
  helmDir : String → Option String
  backupDir : Option Nat
  backups : Nat → Option ConfigBackup
  nextTemp : Nat

/-- `glob("*.tf")` membership. -/
def endsWithTf (name : String) : Bool := pyEndsWith name ".tf"

namespace FileUpdater

/-- `create_backup` (lines 1743-1758): always allocates a fresh temporary
directory, copies the current `*.tf` files and helm tree into it, and repoints
`self.backup_dir`. -/
def create_backup (s : FUState) : FUState :=
  { s with
    backupDir := some s.nextTemp,
    backups := fun i => if i = s.nextTemp then
        some ⟨fun n => if endsWithTf n then s.tfDir n else none, s.helmDir⟩
      else s.backups i,
    nextTemp := s.nextTemp + 1 }

/-- `restore_backup` (lines 1760-1779): no-op without a live backup directory;
otherwise copies every backed-up file over the live trees. -/
def restore_backup (s : FUState) : FUState :=
  match s.backupDir with
  | none => s
  | some id =>
    match s.backups id with
    | none => s
    | some b =>
      { s with
        tfDir := fun n => match b.tf n with | some c => some c | none => s.tfDir n,
        helmDir := fun n => match b.helm n with | some c => some c | none => s.helmDir n }

/-- `cleanup_backup` (lines 1781-1784): removes the backup directory if it
exists; leaves `self.backup_dir` set. -/
def cleanup_backup (s : FUState) : FUState :=
  match s.backupDir with
  | none => s
  | some id =>
    match s.backups id with
    | none => s
    | some _ => { s with backups := fun i => if i = id then none else s.backups i }

/-- `update_terraform_variables` (lines 1786-1806): reads `variables.tf`
(raising if absent), applies the regex substitutions (`substTf`), writes back. -/
def update_terraform_variables (substTf : String → String) (s : FUState) :
    Option FUState :=
  match s.tfDir "variables.tf" with
  | none => none
  | some content => some { s with tfDir := setF s.tfDir "variables.tf" (substTf content) }

/-- `update_helm_values` (lines 1906-1928): reads `values.yaml` (raising if
absent), applies the YAML-value substitutions (`substYaml`), writes back. -/
def update_helm_values (substYaml : String → String) (s : FUState) :
    Option FUState :=
  match s.helmDir "values.yaml" with
  | none => none
  | some content => some { s with helmDir := setF s.helmDir "values.yaml" (substYaml content) }

/-- `create_terraform_tfvars` (lines 1808-1850): writes the generated content
to `terraform.tfvars` (creating or overwriting). -/
def create_terraform_tfvars (c : DeploymentConfig) (s : FUState) : FUState :=
  { s with tfDir := setF s.tfDir "terraform.tfvars" (tfvarsContent c) }

/-- Outcome of `apply_configuration`: whether an exception propagated, whether
`restore_backup` ran before it propagated, and the resulting disk state. -/
structure ApplyOut where
  raised : Bool
  restored : Bool
  state : FUState

/-- `apply_configuration` (lines 1955-1972): backup, then the three mutation
steps inside `try`; on any exception `restore_backup()` then re-raise. -/
def apply_configuration (substTf substYaml : String → String)
    (c : DeploymentConfig) (s : FUState) : ApplyOut :=
  let s1 := create_backup s
  match update_terraform_variables substTf s1 with
  | none => { raised := true, restored := true, state := restore_backup s1 }
  | some s2 =>
    match update_helm_values substYaml s2 with
    | none => { raised := true, restored := true, state := restore_backup s2 }
    | some s3 => { raised := false, restored := false, state := create_terraform_tfvars c s3 }

end FileUpdater

/-! #### Facts about the Config Artifact Manager -/

open FileUpdater

theorem create_backup_tfDir (s : FUState) : (create_backup s).tfDir = s.tfDir := rfl

theorem create_backup_helmDir (s : FUState) : (create_backup s).helmDir = s.helmDir := rfl

/-- If an exception is raised inside `apply_configuration` after
`create_backup` has run, `restore_backup` is invoked before the exception
propagates, and every file that was backed up (every `*.tf` file of the
terraform directory and every file of the helm tree) has its pre-apply content
in the resulting tree. (C1) -/
theorem apply_restores_on_failure (substTf substYaml : String → String)
    (c : DeploymentConfig) (s : FUState)
    (h : (apply_configuration substTf substYaml c s).raised = true) :
    (apply_configuration substTf substYaml c s).restored = true ∧
    (∀ n v, endsWithTf n = true → s.tfDir n = some v →
      (apply_configuration substTf substYaml c s).state.tfDir n = some v) ∧
    (∀ p v, s.helmDir p = some v →
      (apply_configuration substTf substYaml c s).state.helmDir p = some v) := by
  unfold apply_configuration update_terraform_variables update_helm_values at *
  simp only [create_backup_tfDir, create_backup_helmDir] at *
  cases hc : s.tfDir "variables.tf" with
  | none =>
    simp only [hc] at h ⊢
    refine ⟨trivial, ?_, ?_⟩
    · intro n v hn hv
      simp [restore_backup, create_backup, hn, hv]
    · intro p v hv
      simp [restore_backup, create_backup, hv]
  | some content =>
    simp only [hc] at h ⊢
    cases hy : s.helmDir "values.yaml" with
    | none =>
      simp only [hy] at h ⊢
      refine ⟨trivial, ?_, ?_⟩
      · intro n v hn hv
        simp [restore_backup, create_backup, setF, hn, hv]
      · intro p v hv
        simp [restore_backup, create_backup, setF, hv]
    | some ycontent =>
      simp only [hy] at h
      exact absurd h (by simp)

/-- Witness for C1: `values.yaml` is missing, so `update_helm_values` raises
after `variables.tf` has already been rewritten; the rewritten `variables.tf`
is rolled back to its original content. -/
theorem apply_restores_on_failure_witness :
    ((apply_configuration (fun _ => "MUTATED") (fun y => y) {}
        { tfDir := fun n => if n = "variables.tf" then some "V" else none,
          helmDir := fun _ => none,
          backupDir := none, backups := fun _ => none, nextTemp := 0 }).raised = true)
    ∧ (apply_configuration (fun _ => "MUTATED") (fun y => y) {}
        { tfDir := fun n => if n = "variables.tf" then some "V" else none,
          helmDir := fun _ => none,
          backupDir := none, backups := fun _ => none, nextTemp := 0 }).state.tfDir
        "variables.tf" = some "V" :=
  ⟨rfl,
   (apply_restores_on_failure (fun _ => "MUTATED") (fun y => y) {}
      { tfDir := fun n => if n = "variables.tf" then some "V" else none,
        helmDir := fun _ => none,
        backupDir := none, backups := fun _ => none, nextTemp := 0 } rfl).2.1
     "variables.tf" "V" rfl rfl⟩

/-- The round-trip `create_backup(); apply_configuration(c); restore_backup()`
does not return the terraform directory to its pre-apply state: the generated
`terraform.tfvars` is not matched by the `*.tf` backup glob, so it survives
the restore — here it is present afterwards although absent before.
(counterexample to C2) -/
theorem backup_roundtrip_counterexample :
    ((restore_backup (apply_configuration (fun t => t) (fun y => y)
        { n8n_host := "n8n.example.com" }
        (create_backup
          { tfDir := fun n => if n = "variables.tf" then some "V" else none,
            helmDir := fun n => if n = "values.yaml" then some "Y" else none,
            backupDir := none, backups := fun _ => none, nextTemp := 0 })).state).tfDir
      "terraform.tfvars").isSome = true
    ∧ ((fun n => if n = "variables.tf" then some "V" else none) : String → Option String)
        "terraform.tfvars" = none := by
  constructor
  · rfl
  · rfl

/-- Amended C2: after `create_backup(); apply_configuration(c)` succeeding and
`restore_backup()`, every terraform-directory file other than
`terraform.tfvars` and every helm-tree file is byte-identical to its
pre-apply state, while `terraform.tfvars` holds the freshly generated
content (even if it did not exist before). -/
theorem backup_roundtrip_amended (substTf substYaml : String → String)
    (c : DeploymentConfig) (s : FUState)
    (h : (apply_configuration substTf substYaml c (create_backup s)).raised = false) :
    (∀ n, n ≠ "terraform.tfvars" →
      (restore_backup
        (apply_configuration substTf substYaml c (create_backup s)).state).tfDir n
        = s.tfDir n) ∧
    (restore_backup
        (apply_configuration substTf substYaml c (create_backup s)).state).tfDir
        "terraform.tfvars" = some (tfvarsContent c) ∧
    (∀ p, (restore_backup
        (apply_configuration substTf substYaml c (create_backup s)).state).helmDir p
        = s.helmDir p) := by
  unfold apply_configuration update_terraform_variables update_helm_values at *
  simp only [create_backup_tfDir, create_backup_helmDir] at *
  cases hc : s.tfDir "variables.tf" with
  | none => simp only [hc] at h; exact absurd h (by simp)
  | some content =>
    simp only [hc] at h ⊢
    cases hy : s.helmDir "values.yaml" with
    | none => simp only [hy] at h; exact absurd h (by simp)
    | some ycontent =>
      simp only [hy] at h ⊢
      refine ⟨?_, ?_, ?_⟩
      · intro n hn
        by_cases htf : endsWithTf n = true
        · cases hv : s.tfDir n with
          | some w =>
            simp [restore_backup, create_backup, create_terraform_tfvars, setF,
              htf, hv, hn]
          | none =>
            have hnv : n ≠ "variables.tf" := by
              intro he; rw [he, hc] at hv; cases hv
            simp [restore_backup, create_backup, create_terraform_tfvars, setF,
              htf, hv, hn, hnv]
        · have hnv : n ≠ "variables.tf" := by
            intro he; subst he; exact htf rfl
          simp [restore_backup, create_backup, create_terraform_tfvars, setF,
            htf, hn, hnv]
      · have htfv : endsWithTf "terraform.tfvars" = false := rfl
        simp [restore_backup, create_backup, create_terraform_tfvars, setF, htfv]
      · intro p
        by_cases hp : p = "values.yaml"
        · subst hp
          simp [restore_backup, create_backup, create_terraform_tfvars, setF, hy]
        · cases hv : s.helmDir p <;>
            simp [restore_backup, create_backup, create_terraform_tfvars, setF, hp, hv]

/-- Witness for the amended C2 at a concrete tree and config. -/
theorem backup_roundtrip_amended_witness :
    ((restore_backup (apply_configuration (fun t => t) (fun y => y)
        { n8n_host := "n8n.example.com" }
        (create_backup
          { tfDir := fun n => if n = "variables.tf" then some "V" else none,
            helmDir := fun n => if n = "values.yaml" then some "Y" else none,
            backupDir := none, backups := fun _ => none, nextTemp := 0 })).state).tfDir
      "variables.tf" = some "V")
    ∧ ((restore_backup (apply_configuration (fun t => t) (fun y => y)
        { n8n_host := "n8n.example.com" }
        (create_backup
          { tfDir := fun n => if n = "variables.tf" then some "V" else none,
            helmDir := fun n => if n = "values.yaml" then some "Y" else none,
            backupDir := none, backups := fun _ => none, nextTemp := 0 })).state).helmDir
      "values.yaml" = some "Y") := by
  have h := backup_roundtrip_amended (fun t => t) (fun y => y)
    { n8n_host := "n8n.example.com" }
    { tfDir := fun n => if n = "variables.tf" then some "V" else none,
      helmDir := fun n => if n = "values.yaml" then some "Y" else none,
      backupDir := none, backups := fun _ => none, nextTemp := 0 } rfl
  exact ⟨(h.1 "variables.tf" (by decide)).trans rfl, (h.2.2 "values.yaml").trans rfl⟩

/-- A second `create_backup` call with no intervening cleanup allocates a new
backup location, repoints the manager at it, and leaves both backup
directories live. (counterexample to C9) -/
theorem create_backup_not_idempotent :
    ((create_backup
        { tfDir := fun _ => none, helmDir := fun _ => none,
          backupDir := none, backups := fun _ => none, nextTemp := 0 }).backupDir
      = some 0)
    ∧ ((create_backup (create_backup
        { tfDir := fun _ => none, helmDir := fun _ => none,
          backupDir := none, backups := fun _ => none, nextTemp := 0 })).backupDir
      = some 1)
    ∧ ((create_backup (create_backup
        { tfDir := fun _ => none, helmDir := fun _ => none,
          backupDir := none, backups := fun _ => none, nextTemp := 0 })).backups 0).isSome
      = true
    ∧ ((create_backup (create_backup
        { tfDir := fun _ => none, helmDir := fun _ => none,
          backupDir := none, backups := fun _ => none, nextTemp := 0 })).backups 1).isSome
      = true :=
  ⟨rfl, rfl, rfl, rfl⟩

/-- Amended C9: `create_backup` is not idempotent — every call allocates a
fresh backup directory holding the current `*.tf` files and helm tree,
repoints `self.backup_dir` at it (so `restore_backup` uses the newest
backup), and leaves all earlier backup directories in place. -/
theorem create_backup_allocates_fresh (s : FUState) :
    (create_backup s).backupDir = some s.nextTemp ∧
    (create_backup s).nextTemp = s.nextTemp + 1 ∧
    (create_backup s).backups s.nextTemp =
      some ⟨fun n => if endsWithTf n then s.tfDir n else none, s.helmDir⟩ ∧
    (∀ i, i ≠ s.nextTemp → (create_backup s).backups i = s.backups i) := by
  refine ⟨rfl, rfl, ?_, ?_⟩
  · simp [create_backup]
  · intro i hi
    simp [create_backup, hi]

/-- Witness for the amended C9: a fresh manager; the slot below the allocated
one is untouched. -/
theorem create_backup_allocates_fresh_witness :
    ((create_backup
        { tfDir := fun _ => none, helmDir := fun _ => none,
          backupDir := none, backups := fun _ => none, nextTemp := 3 }).backupDir
      = some 3)
    ∧ ((create_backup
        { tfDir := fun _ => none, helmDir := fun _ => none,
          backupDir := none, backups := fun _ => none, nextTemp := 3 }).backups 0
      = none) :=
  have h := create_backup_allocates_fresh
    { tfDir := fun _ => none, helmDir := fun _ => none,
      backupDir := none, backups := fun _ => none, nextTemp := 3 }
  ⟨h.1, (h.2.2.2 0 (by decide)).trans rfl⟩

/-! ### Main flow (`main`, AWS path, lines 3982-4589)

The AWS deployment flow of `main()` is a linear phase sequence inside one
`try` whose two handlers (SetupInterrupted / generic Exception) both run
`updater.restore_backup(); updater.cleanup_backup()` when `updater` exists and
`sys.exit(1)`.  External effects are environment inputs: whether a prompt is
interrupted, whether each external step succeeds, the poll result.  The
pre- and post-apply `save_state_for_region` copies touch only the terraform
directory and are abstracted as terraform-directory transformers. -/

structure MainEnv where
  /-- SetupInterrupted raised inside `prompt.collect_configuration` (a prompt
  during configuration collection, before `updater` exists). -/
  interruptAtCollect : Bool
  cfg : DeploymentConfig
  substTf : String → String
  substYaml : String → String
  tfInitOk : Bool
  tfPlanOk : Bool
  /-- Answer to the `"Proceed with Terraform apply?"` prompt; `False` raises
  SetupInterrupted (line 4433). -/
  applyConfirmYes : Bool
  /-- Effect on the terraform directory of the pre-apply state save. -/
  stateSavePre : (String → Option String) → (String → Option String)
  tfApplyOk : Bool
  /-- Effect on the terraform directory of the post-apply state save. -/
  stateSavePost : (String → Option String) → (String → Option String)
  /-- No exception in the kubectl-configuration step (also covers the
  `configure_kubectl`-absent case, which is skipped silently). -/
  kubectlOk : Bool
  /-- Terraform outputs carry a non-empty `n8n_encryption_key_value`. -/
  encryptionKeyOk : Bool
  helmOk : Bool
  /-- Result of `get_loadbalancer_url(max_attempts=30, delay=10)`. -/
  pollResult : Option String

structure MainResult where
  exitCode : Nat
  fs : FUState
  interruptRaised : Bool
  updaterCreated : Bool
  tfApplyCalled : Bool
  restoreCalled : Bool
  cleanupCalled : Bool
  hardeningEntered : Bool
  lbUrl : String

/-- The two exception handlers of `main` (lines 4571-4585): restore, cleanup,
exit 1 (here with `updater` in scope). -/
def mainFail (interrupted tfApplyCalled : Bool) (s : FUState) : MainResult :=
  { exitCode := 1, fs := cleanup_backup (restore_backup s),
    interruptRaised := interrupted, updaterCreated := true,
    tfApplyCalled := tfApplyCalled, restoreCalled := true, cleanupCalled := true,
    hardeningEntered := false, lbUrl := "" }

/-- The AWS deployment flow of `main()`. -/
def runMain (env : MainEnv) (s : FUState) : MainResult :=
  if env.interruptAtCollect then
    -- SetupInterrupted before `updater = FileUpdater(...)`: the handler's
    -- `if 'updater' in locals()` guard is false, so no restore/cleanup.
    { exitCode := 1, fs := s, interruptRaised := true, updaterCreated := false,
      tfApplyCalled := false, restoreCalled := false, cleanupCalled := false,
      hardeningEntered := false, lbUrl := "" }
  else
    let out := FileUpdater.apply_configuration env.substTf env.substYaml env.cfg s
    if out.raised then mainFail false false out.state
    else if !env.tfInitOk then mainFail false false out.state
    else if !env.tfPlanOk then mainFail false false out.state
    else if !env.applyConfirmYes then mainFail true false out.state
    else
      let s2 : FUState := { out.state with tfDir := env.stateSavePre out.state.tfDir }
      if !env.tfApplyOk then mainFail false true s2
      else
        let s3 : FUState := { s2 with tfDir := env.stateSavePost s2.tfDir }
        if !env.kubectlOk then mainFail false true s3
        else if !env.encryptionKeyOk then mainFail false true s3
        else if !env.helmOk then mainFail false true s3
        else
          let url := match env.pollResult with
            | none => "<pending>"
            | some u => if u = "" then "<pending>" else u
          { exitCode := 0, fs := FileUpdater.cleanup_backup s3,
            interruptRaised := false, updaterCreated := true,
            tfApplyCalled := true, restoreCalled := false, cleanupCalled := true,
            hardeningEntered := url != "<pending>", lbUrl := url }

/-- A SetupInterrupted raised at any prompt is caught by `main`, which runs
`restore_backup` then `cleanup_backup` when the updater exists and exits with
status 1; an interrupt during configuration collection happens before the
updater exists, before any terraform apply and before any config-artifact
mutation, so the file trees are exactly the pre-run ones. (C6) -/
theorem interrupt_rolls_back (env : MainEnv) (s : FUState) :
    ((runMain env s).interruptRaised = true →
      (runMain env s).exitCode = 1 ∧
      ((runMain env s).updaterCreated = true →
        (runMain env s).restoreCalled = true ∧ (runMain env s).cleanupCalled = true))
    ∧ (env.interruptAtCollect = true →
      (runMain env s).interruptRaised = true ∧
      (runMain env s).updaterCreated = false ∧
      (runMain env s).tfApplyCalled = false ∧
      (runMain env s).fs = s) := by
  by_cases hi : env.interruptAtCollect
  · simp [runMain, hi]
  · cases hr : (FileUpdater.apply_configuration env.substTf env.substYaml env.cfg s).raised
      <;> cases hinit : env.tfInitOk <;> cases hplan : env.tfPlanOk
      <;> cases hconf : env.applyConfirmYes <;> cases happ : env.tfApplyOk
      <;> cases hk : env.kubectlOk <;> cases he : env.encryptionKeyOk
      <;> cases hh : env.helmOk
      <;> simp [runMain, mainFail, hi, hr, hinit, hplan, hconf, happ, hk, he, hh]

/-- Witness for C6: a run interrupted during configuration collection. -/
theorem interrupt_rolls_back_witness :
    (runMain
      { interruptAtCollect := true, cfg := {}, substTf := fun t => t,
        substYaml := fun y => y, tfInitOk := true, tfPlanOk := true,
        applyConfirmYes := true, stateSavePre := fun d => d, tfApplyOk := true,
        stateSavePost := fun d => d, kubectlOk := true, encryptionKeyOk := true,
        helmOk := true, pollResult := none }
      { tfDir := fun _ => none, helmDir := fun _ => none, backupDir := none,
        backups := fun _ => none, nextTemp := 0 }).exitCode = 1
    ∧ (runMain
      { interruptAtCollect := true, cfg := {}, substTf := fun t => t,
        substYaml := fun y => y, tfInitOk := true, tfPlanOk := true,
        applyConfirmYes := true, stateSavePre := fun d => d, tfApplyOk := true,
        stateSavePost := fun d => d, kubectlOk := true, encryptionKeyOk := true,
        helmOk := true, pollResult := none }
      { tfDir := fun _ => none, helmDir := fun _ => none, backupDir := none,
        backups := fun _ => none, nextTemp := 0 }).fs =
      { tfDir := fun _ => none, helmDir := fun _ => none, backupDir := none,
        backups := fun _ => none, nextTemp := 0 } := by
  have h := interrupt_rolls_back
    { interruptAtCollect := true, cfg := {}, substTf := fun t => t,
      substYaml := fun y => y, tfInitOk := true, tfPlanOk := true,
      applyConfirmYes := true, stateSavePre := fun d => d, tfApplyOk := true,
      stateSavePost := fun d => d, kubectlOk := true, encryptionKeyOk := true,
      helmOk := true, pollResult := none }
    { tfDir := fun _ => none, helmDir := fun _ => none, backupDir := none,
      backups := fun _ => none, nextTemp := 0 }
  exact ⟨(h.1 rfl).1, (h.2 rfl).2.2.2⟩

/-- When every phase up to the application deployment succeeds and the
load-balancer poll exhausts (returns `None`), the run does not fail: the
endpoint is reported as `"<pending>"`, the deployment completes successfully
(exit 0, backup cleaned up, no restore), and the TLS/basic-auth hardening
phase is skipped. (C8) -/
theorem poll_exhaustion_nonfatal (env : MainEnv) (s : FUState)
    (hic : env.interruptAtCollect = false)
    (happ : (FileUpdater.apply_configuration env.substTf env.substYaml env.cfg s).raised
      = false)
    (hinit : env.tfInitOk = true) (hplan : env.tfPlanOk = true)
    (hconfirm : env.applyConfirmYes = true) (happly : env.tfApplyOk = true)
    (hkube : env.kubectlOk = true) (henc : env.encryptionKeyOk = true)
    (hhelm : env.helmOk = true) (hpoll : env.pollResult = none) :
    (runMain env s).exitCode = 0 ∧
    (runMain env s).lbUrl = "<pending>" ∧
    (runMain env s).hardeningEntered = false ∧
    (runMain env s).cleanupCalled = true ∧
    (runMain env s).restoreCalled = false := by
  simp [runMain, hic, happ, hinit, hplan, hconfirm, happly, hkube, henc, hhelm, hpoll]

/-- Witness for C8: a fully successful run whose poll exhausts. -/
theorem poll_exhaustion_nonfatal_witness :
    (runMain
      { interruptAtCollect := false, cfg := {}, substTf := fun t => t,
        substYaml := fun y => y, tfInitOk := true, tfPlanOk := true,
        applyConfirmYes := true, stateSavePre := fun d => d, tfApplyOk := true,
        stateSavePost := fun d => d, kubectlOk := true, encryptionKeyOk := true,
        helmOk := true, pollResult := none }
      { tfDir := fun n => if n = "variables.tf" then some "V" else none,
        helmDir := fun n => if n = "values.yaml" then some "Y" else none,
        backupDir := none, backups := fun _ => none, nextTemp := 0 }).exitCode = 0
    ∧ (runMain
      { interruptAtCollect := false, cfg := {}, substTf := fun t => t,
        substYaml := fun y => y, tfInitOk := true, tfPlanOk := true,
        applyConfirmYes := true, stateSavePre := fun d => d, tfApplyOk := true,
        stateSavePost := fun d => d, kubectlOk := true, encryptionKeyOk := true,
        helmOk := true, pollResult := none }
      { tfDir := fun n => if n = "variables.tf" then some "V" else none,
        helmDir := fun n => if n = "values.yaml" then some "Y" else none,
        backupDir := none, backups := fun _ => none, nextTemp := 0 }).lbUrl = "<pending>"
    ∧ (runMain
      { interruptAtCollect := false, cfg := {}, substTf := fun t => t,
        substYaml := fun y => y, tfInitOk := true, tfPlanOk := true,
        applyConfirmYes := true, stateSavePre := fun d => d, tfApplyOk := true,
        stateSavePost := fun d => d, kubectlOk := true, encryptionKeyOk := true,
        helmOk := true, pollResult := none }
      { tfDir := fun n => if n = "variables.tf" then some "V" else none,
        helmDir := fun n => if n = "values.yaml" then some "Y" else none,
        backupDir := none, backups := fun _ => none, nextTemp := 0 }).hardeningEntered
      = false := by
  have h := poll_exhaustion_nonfatal
    { interruptAtCollect := false, cfg := {}, substTf := fun t => t,
      substYaml := fun y => y, tfInitOk := true, tfPlanOk := true,
      applyConfirmYes := true, stateSavePre := fun d => d, tfApplyOk := true,
      stateSavePost := fun d => d, kubectlOk := true, encryptionKeyOk := true,
      helmOk := true, pollResult := none }
    { tfDir := fun n => if n = "variables.tf" then some "V" else none,
      helmDir := fun n => if n = "values.yaml" then some "Y" else none,
      backupDir := none, backups := fun _ => none, nextTemp := 0 }
    rfl rfl rfl rfl rfl rfl rfl rfl rfl rfl
  exact ⟨h.1, h.2.1, h.2.2.1⟩

/-! ### Loading a configuration back (`load_existing_configuration`, lines 1975-2031)

The function reads `terraform.tfvars`, iterates over its lines, and mutates a
fresh `DeploymentConfig`.  The embedding takes the file content as input.
Python primitives are modelled at character level: `strip`, `rstrip(',')`,
`split('=', 1)`, the quoted-string check, and the subset of `json.loads`
that the tfvars value grammar uses (true/false, integers, and lists of
strings as produced by `json.dumps` without escape sequences).  `splitlines`
is modelled as splitting on `'\n'`, which agrees with Python whenever the
content's only line-break characters are `'\n'` (the generator joins lines
with `'\n'`; other line-break characters are excluded by the single-line
hypotheses where they matter). -/

/-- ASCII whitespace stripped by Python's `str.strip()`. -/
def isPySpace (c : Char) : Bool :=
  c = ' ' || c = '\t' || c = '\n' || c = '\r' || c = '\x0b' || c = '\x0c'

/-- `s.strip()`. -/
def stripChars (l : List Char) : List Char :=
  ((l.dropWhile isPySpace).reverse.dropWhile isPySpace).reverse

/-- `s.rstrip(',')`. -/
def rstripCommas (l : List Char) : List Char :=
  (l.reverse.dropWhile (fun c => c = ',')).reverse

/-- `line.split('=', 1)`: the characters before the first `'='` and those
after it (the whole line when no `'='` occurs, but the caller checks first). -/
def splitFirstEq : List Char → List Char × List Char
  | [] => ([], [])
  | c :: rest =>
    if c = '=' then ([], rest)
    else
      let p := splitFirstEq rest
      (c :: p.1, p.2)

/-- Value of a decimal digit string, most significant first. -/
def digitsToNat (ds : List Char) : Nat :=
  ds.foldl (fun acc c => acc * 10 + (c.toNat - 48)) 0

/-- The JSON integer grammar on unsigned literals: non-empty digits, no
leading zero except `"0"` itself. -/
def parseJsonNat (ds : List Char) : Option Nat :=
  if ds = [] then none
  else if ds = ['0'] then some 0
  else if ds.head? = some '0' then none
  else if ds.all (fun c => c.isDigit) then some (digitsToNat ds) else none

/-- The JSON integer grammar with optional leading minus. -/
def parseJsonInt (ds : List Char) : Option Int :=
  if ds.head? = some '-' then (parseJsonNat (ds.drop 1)).map (fun n => -(n : Int))
  else (parseJsonNat ds).map (fun n => (n : Int))

/-- Parsing modes for a JSON list of strings: at an item start, inside a
quoted string, after a closing quote, and after the `','` of a separator. -/
inductive PMode where
  | start | inStr | sep0 | sep1

/-- Character-level scan of the items of a JSON string list in the exact
shape `json.dumps` produces (`"a", "b"` followed by the closing `]` at the
very end). -/
def parseItemsGo : List Char → PMode → List Char → List String → Option (List String)
  | [], _, _, _ => none
  | c :: rest, .start, _, acc =>
    if c = '"' then parseItemsGo rest .inStr [] acc else none
  | c :: rest, .inStr, cur, acc =>
    if c = '"' then parseItemsGo rest .sep0 [] (String.mk cur.reverse :: acc)
    else parseItemsGo rest .inStr (c :: cur) acc
  | c :: rest, .sep0, _, acc =>
    if c = ']' then (if rest.isEmpty then some acc.reverse else none)
    else if c = ',' then parseItemsGo rest .sep1 [] acc
    else none
  | c :: rest, .sep1, _, acc =>
    if c = ' ' then parseItemsGo rest .start [] acc else none

/-- `json.loads` on a list of escape-free strings in `json.dumps` shape. -/
def parseJsonList (cs : List Char) : Option (List String) :=
  if cs.head? = some '[' then
    if cs.drop 1 = [']'] then some []
    else parseItemsGo (cs.drop 1) .start [] []
  else none

/-- A `json.loads`/`json.dumps`-level value of a tfvars line. -/
inductive TfValue where
  | str (s : String)
  | int (n : Int)
  | bool (b : Bool)
  | list (l : List String)
deriving DecidableEq

/-- `value.startswith('"') and value.endswith('"')`. -/
def isQuoted (l : List Char) : Bool :=
  (l.head? == some '"') && (l.getLast? == some '"')

/-- Lines 1992-1999: quoted values keep the inner text; otherwise
`json.loads` is attempted (on the value grammar the generator emits), and on
failure the raw string is kept. -/
def parseTfValue (v : List Char) : TfValue :=
  if isQuoted v then .str (String.mk ((v.drop 1).dropLast))
  else if v = "true".data then .bool true
  else if v = "false".data then .bool false
  else
    match parseJsonInt v with
    | some n => .int n
    | none =>
      match parseJsonList v with
      | some l => .list l
      | none => .str (String.mk v)

/-- Python `str(parsed)`. -/
def pyStr : TfValue → String
  | .str s => s
  | .int n => pyIntRepr n
  | .bool b => if b then "True" else "False"
  | .list l =>
    String.mk ('[' ::
      (List.intercalate [',', ' '] (l.map (fun s => ('\'' :: s.data) ++ ['\''])) ++ [']']))

/-- Non-empty digit run (Python `int(str)` accepts leading zeros). -/
def parseDigits (ds : List Char) : Option Nat :=
  if ds = [] then none
  else if ds.all (fun c => c.isDigit) then some (digitsToNat ds) else none

/-- Python `int(parsed)`: identity on ints, 1/0 on bools, digit parsing on
strings (raising `ValueError` on failure), `TypeError` on lists. -/
def pyIntOf : TfValue → Except String Int
  | .int n => .ok n
  | .bool b => .ok (if b then 1 else 0)
  | .str s =>
    let t := stripChars s.data
    if t.head? = some '-' then
      match parseDigits (t.drop 1) with
      | some n => .ok (-(n : Int))
      | none => .error "invalid literal for int()"
    else
      match parseDigits t with
      | some n => .ok (n : Int)
      | none => .error "invalid literal for int()"
  | .list _ => .error "int() argument must be a string or a number"

/-- Python `bool(parsed)` (truthiness). -/
def pyBoolOf : TfValue → Bool
  | .bool b => b
  | .int n => !(n == 0)
  | .str s => !(s == "")
  | .list l => !l.isEmpty

/-- `list(parsed) if isinstance(parsed, list) else [str(parsed)]`. -/
def pyListOf : TfValue → List String
  | .list l => l
  | v => [pyStr v]

/-- The `if key == ... / elif ...` dispatch of lines 2001-2026; unknown keys
are ignored. -/
def applyKey (c : DeploymentConfig) (key : String) (v : TfValue) :
    Except String DeploymentConfig :=
  if key = "aws_profile" then .ok { c with aws_profile := some (pyStr v) }
  else if key = "region" then .ok { c with aws_region := some (pyStr v) }
  else if key = "cluster_name" then .ok { c with cluster_name := pyStr v }
  else if key = "node_instance_types" then
    .ok { c with node_instance_types := pyListOf v }
  else if key = "node_desired_size" then
    (pyIntOf v).map (fun n => { c with node_desired_size := n })
  else if key = "node_min_size" then
    (pyIntOf v).map (fun n => { c with node_min_size := n })
  else if key = "node_max_size" then
    (pyIntOf v).map (fun n => { c with node_max_size := n })
  else if key = "n8n_host" then .ok { c with n8n_host := pyStr v }
  else if key = "timezone" then .ok { c with timezone := pyStr v }
  else if key = "n8n_encryption_key" then .ok { c with n8n_encryption_key := pyStr v }
  else if key = "n8n_namespace" then .ok { c with n8n_namespace := pyStr v }
  else if key = "n8n_persistence_size" then
    .ok { c with n8n_persistence_size := pyStr v }
  else if key = "enable_nginx_ingress" then
    .ok { c with enable_nginx_ingress := pyBoolOf v }
  else .ok c

/-- `content.splitlines()` for contents whose line breaks are `'\n'`. -/
def splitLines (content : String) : List String :=
  (content.data.splitOn '\n').map String.mk

/-- The loop body of lines 1984-2026 for one raw line. -/
def processLine (c : DeploymentConfig) (raw : String) :
    Except String DeploymentConfig :=
  let line := stripChars raw.data
  if line.isEmpty then .ok c
  else if line.head? = some '#' then .ok c
  else if !(line.any (fun ch => ch = '=')) then .ok c
  else
    let kv := splitFirstEq line
    applyKey c (String.mk (stripChars kv.1)) (parseTfValue (rstripCommas (stripChars kv.2)))

/-- `load_existing_configuration` as a function of the tfvars file content,
including the final `n8n_host` presence check (lines 2028-2029). -/
def load_existing_configuration (content : String) :
    Except String DeploymentConfig :=
  match (splitLines content).foldlM processLine ({} : DeploymentConfig) with
  | .error e => .error e
  | .ok cfg =>
    if cfg.n8n_host = "" then .error "n8n_host is missing in terraform.tfvars"
    else .ok cfg

/-! #### Round-trip facts: string-primitive lemmas -/

theorem dropWhile_eq_self_of_head {p : Char → Bool} (l : List Char)
    (h : ∀ c, l.head? = some c → p c = false) : l.dropWhile p = l := by
  cases l with
  | nil => rfl
  | cons a t => simp [List.dropWhile_cons, h a rfl]

theorem stripChars_eq_self (l : List Char)
    (h1 : ∀ c, l.head? = some c → isPySpace c = false)
    (h2 : ∀ c, l.getLast? = some c → isPySpace c = false) :
    stripChars l = l := by
  unfold stripChars
  rw [dropWhile_eq_self_of_head l h1]
  rw [dropWhile_eq_self_of_head l.reverse (fun c hc => h2 c (by rwa [List.head?_reverse] at hc))]
  exact List.reverse_reverse l

theorem stripChars_cons_space (l : List Char) : stripChars (' ' :: l) = stripChars l := by
  unfold stripChars
  rw [List.dropWhile_cons]
  norm_num [isPySpace]

theorem rstripCommas_eq_self (l : List Char)
    (h : ∀ c, l.getLast? = some c → (c == ',') = false) : rstripCommas l = l := by
  unfold rstripCommas
  rw [dropWhile_eq_self_of_head l.reverse
    (fun c hc => by
      have := h c (by rwa [List.head?_reverse] at hc)
      simpa using this)]
  exact List.reverse_reverse l

theorem splitFirstEq_append (kp : List Char) (rest : List Char) (h : '=' ∉ kp) :
    splitFirstEq (kp ++ '=' :: rest) = (kp, rest) := by
  induction kp with
  | nil => simp [splitFirstEq]
  | cons c t ih =>
    have hc : c ≠ '=' := fun he => h (he ▸ List.mem_cons_self c t)
    have ht : '=' ∉ t := fun hm => h (List.mem_cons_of_mem c hm)
    simp [splitFirstEq, hc, ih ht]

/-! #### Round-trip facts: decimal representation -/

theorem digitChar_isDigit (d : Nat) (h : d < 10) : (Nat.digitChar d).isDigit = true := by
  interval_cases d <;> decide

theorem digitChar_val (d : Nat) (h : d < 10) : (Nat.digitChar d).toNat - 48 = d := by
  interval_cases d <;> decide

theorem digitChar_ne_zero (d : Nat) (h : d < 10) (h0 : d ≠ 0) : Nat.digitChar d ≠ '0' := by
  interval_cases d <;> simp_all <;> decide

theorem ne_of_isDigit {c d : Char} (h : c.isDigit = true) (hd : d.isDigit = false) :
    c ≠ d := by
  intro he
  rw [he, hd] at h
  cases h

theorem natRepr_ne_nil (n : Nat) : natRepr n ≠ [] := by
  rw [natRepr_eq]
  by_cases h10 : n < 10 <;> simp [h10]

theorem natRepr_digits (n : Nat) : ∀ c ∈ natRepr n, c.isDigit = true := by
  induction n using Nat.strong_induction_on with
  | _ n ih =>
    rw [natRepr_eq]
    by_cases h10 : n < 10
    · simp only [h10, if_pos]
      intro c hc
      rw [List.mem_singleton] at hc
      exact hc ▸ digitChar_isDigit n h10
    · have hdiv : n / 10 < n := Nat.div_lt_self (by omega) (by omega)
      simp only [h10, if_neg, if_false]
      intro c hc
      rcases List.mem_append.mp hc with hm | hm
      · exact ih (n / 10) hdiv c hm
      · rw [List.mem_singleton] at hm
        exact hm ▸ digitChar_isDigit (n % 10) (Nat.mod_lt _ (by omega))

theorem digitsToNat_concat (a : List Char) (c : Char) :
    digitsToNat (a ++ [c]) = digitsToNat a * 10 + (c.toNat - 48) := by
  simp [digitsToNat, List.foldl_append]

theorem digitsToNat_natRepr (n : Nat) : digitsToNat (natRepr n) = n := by
  induction n using Nat.strong_induction_on with
  | _ n ih =>
    rw [natRepr_eq]
    by_cases h10 : n < 10
    · simp only [h10, if_pos]
      have : digitsToNat [Nat.digitChar n] = (Nat.digitChar n).toNat - 48 := by
        simp [digitsToNat]
      rw [this, digitChar_val n h10]
    · have hdiv : n / 10 < n := Nat.div_lt_self (by omega) (by omega)
      simp only [h10, if_neg, if_false]
      rw [digitsToNat_concat, ih (n / 10) hdiv,
        digitChar_val (n % 10) (Nat.mod_lt _ (by omega))]
      omega

theorem natRepr_head_ne_zero (n : Nat) (h0 : n ≠ 0) :
    (natRepr n).head? ≠ some '0' := by
  induction n using Nat.strong_induction_on with
  | _ n ih =>
    rw [natRepr_eq]
    by_cases h10 : n < 10
    · simp only [h10, if_pos, List.head?_cons]
      intro he
      exact digitChar_ne_zero n h10 h0 (Option.some.inj he)
    · have hdiv : n / 10 < n := Nat.div_lt_self (by omega) (by omega)
      simp only [h10, if_neg, if_false]
      rw [List.head?_append_of_ne_nil _ (natRepr_ne_nil (n / 10))]
      exact ih (n / 10) hdiv (by omega)

theorem parseJsonNat_natRepr (n : Nat) : parseJsonNat (natRepr n) = some n := by
  by_cases h0 : n = 0
  · subst h0; rfl
  · unfold parseJsonNat
    rw [if_neg (natRepr_ne_nil n)]
    have hh := natRepr_head_ne_zero n h0
    rw [if_neg (fun he : natRepr n = ['0'] => hh (by rw [he]; rfl))]
    rw [if_neg hh]
    rw [if_pos (List.all_eq_true.mpr (fun c hc => natRepr_digits n c hc)),
      digitsToNat_natRepr]

theorem pyIntRepr_data_nonneg (n : Int) (h : 0 ≤ n) :
    (pyIntRepr n).data = natRepr n.natAbs := by
  unfold pyIntRepr
  rw [if_neg (by omega)]

theorem pyIntRepr_data_neg (n : Int) (h : n < 0) :
    (pyIntRepr n).data = '-' :: natRepr n.natAbs := by
  unfold pyIntRepr
  rw [if_pos h]

theorem natRepr_head_not_minus (m : Nat) : (natRepr m).head? ≠ some '-' := by
  cases hrep : natRepr m with
  | nil => exact absurd hrep (natRepr_ne_nil m)
  | cons a t =>
    have ha : a.isDigit = true := natRepr_digits m a (hrep ▸ List.mem_cons_self a t)
    simp only [List.head?_cons, ne_eq, Option.some.injEq]
    exact fun he => ne_of_isDigit ha (by decide) he

theorem parseJsonInt_pyIntRepr (n : Int) : parseJsonInt (pyIntRepr n).data = some n := by
  by_cases hneg : n < 0
  · rw [pyIntRepr_data_neg n hneg]
    have h1 : ('-' :: natRepr n.natAbs).head? = some '-' := by rfl
    unfold parseJsonInt
    rw [if_pos h1]
    have habs : -((n.natAbs : Nat) : Int) = n := by omega
    simp only [List.drop_succ_cons, List.drop_zero, parseJsonNat_natRepr]
    simp [habs]
    rw [abs_of_neg hneg, neg_neg]
  · rw [pyIntRepr_data_nonneg n (by omega)]
    simp [parseJsonInt, natRepr_head_not_minus n.natAbs, parseJsonNat_natRepr]
    omega

/-! #### Round-trip facts: value parsing -/

theorem parseTfValue_quoted (s : String) :
    parseTfValue (('"' :: s.data) ++ ['"']) = .str s := by
  unfold parseTfValue
  have hq : isQuoted (('"' :: s.data) ++ ['"']) = true := by
    unfold isQuoted
    rw [List.getLast?_concat]
    simp
  rw [if_pos hq]
  simp [List.dropLast_concat]

theorem isQuoted_eq_false_of_head {l : List Char} {c : Char}
    (hh : l.head? = some c) (hc : c ≠ '"') : ¬ isQuoted l = true := by
  unfold isQuoted
  rw [hh]
  simp [hc]

theorem ne_true_data_of_head {l : List Char} {c : Char}
    (hh : l.head? = some c) (hc : c ≠ 't') : l ≠ "true".data := by
  intro he
  rw [he, show ("true".data.head? : Option Char) = some 't' from rfl] at hh
  exact hc (Option.some.inj hh).symm

theorem ne_false_data_of_head {l : List Char} {c : Char}
    (hh : l.head? = some c) (hc : c ≠ 'f') : l ≠ "false".data := by
  intro he
  rw [he, show ("false".data.head? : Option Char) = some 'f' from rfl] at hh
  exact hc (Option.some.inj hh).symm

theorem pyIntRepr_head (n : Int) :
    ∃ c, (pyIntRepr n).data.head? = some c ∧ (c.isDigit = true ∨ c = '-') := by
  by_cases hneg : n < 0
  · exact ⟨'-', by rw [pyIntRepr_data_neg n hneg]; rfl, Or.inr rfl⟩
  · rw [pyIntRepr_data_nonneg n (by omega)]
    cases hrep : natRepr n.natAbs with
    | nil => exact absurd hrep (natRepr_ne_nil _)
    | cons a t =>
      exact ⟨a, rfl, Or.inl (natRepr_digits _ a (hrep ▸ List.mem_cons_self a t))⟩

theorem parseTfValue_int (n : Int) : parseTfValue (pyIntRepr n).data = .int n := by
  obtain ⟨c, hh, hc⟩ := pyIntRepr_head n
  have hcq : c ≠ '"' := by
    rcases hc with h | h
    · exact ne_of_isDigit h (by decide)
    · subst h; decide
  have hct : c ≠ 't' := by
    rcases hc with h | h
    · exact ne_of_isDigit h (by decide)
    · subst h; decide
  have hcf : c ≠ 'f' := by
    rcases hc with h | h
    · exact ne_of_isDigit h (by decide)
    · subst h; decide
  unfold parseTfValue
  rw [if_neg (isQuoted_eq_false_of_head hh hcq),
    if_neg (ne_true_data_of_head hh hct), if_neg (ne_false_data_of_head hh hcf),
    parseJsonInt_pyIntRepr]

theorem parseTfValue_bool (b : Bool) : parseTfValue (pyBoolTf b).data = .bool b := by
  cases b <;> rfl

theorem intercalate_cons_cons {α : Type} (sep : List α) (a b : List α) (r : List (List α)) :
    List.intercalate sep (a :: b :: r) = a ++ sep ++ List.intercalate sep (b :: r) := by
  simp [List.intercalate, List.intersperse, List.append_assoc]

theorem itemsChars_singleton (s : String) :
    itemsChars [s] = ('"' :: s.data) ++ ['"'] := by
  simp [itemsChars, List.intercalate]

theorem itemsChars_cons_cons (s s' : String) (t : List String) :
    itemsChars (s :: s' :: t) =
      (('"' :: s.data) ++ ['"']) ++ [',', ' '] ++ itemsChars (s' :: t) := by
  unfold itemsChars
  rw [List.map_cons]
  exact intercalate_cons_cons _ _ _ _

theorem parseItemsGo_inStr (d : List Char) (hd : ∀ c ∈ d, ¬ c = '"') :
    ∀ rest cur acc, parseItemsGo (d ++ '"' :: rest) .inStr cur acc
      = parseItemsGo rest .sep0 [] (String.mk (cur.reverse ++ d) :: acc) := by
  induction d with
  | nil => intro rest cur acc; simp [parseItemsGo]
  | cons c t ih =>
    intro rest cur acc
    have hc : ¬ c = '"' := hd c (List.mem_cons_self c t)
    have ht : ∀ x ∈ t, ¬ x = '"' := fun x hx => hd x (List.mem_cons_of_mem c hx)
    simp only [List.cons_append, parseItemsGo, if_neg hc, List.append_eq]
    rw [ih ht rest (c :: cur) acc]
    simp [List.append_assoc]

theorem parseItemsGo_items :
    ∀ (l : List String) (acc : List String), l ≠ [] →
      (∀ s ∈ l, ∀ c ∈ s.data, ¬ c = '"') →
      parseItemsGo (itemsChars l ++ [']']) .start [] acc = some (acc.reverse ++ l) := by
  intro l
  induction l with
  | nil => intro acc h _; exact absurd rfl h
  | cons s t ih =>
    intro acc _ hsafe
    have hs : ∀ c ∈ s.data, ¬ c = '"' := hsafe s (List.mem_cons_self s t)
    have htsafe : ∀ x ∈ t, ∀ c ∈ x.data, ¬ c = '"' :=
      fun x hx => hsafe x (List.mem_cons_of_mem s hx)
    cases t with
    | nil =>
      rw [itemsChars_singleton]
      have hin : ((('"' :: s.data) ++ ['"']) ++ [']'] : List Char)
          = '"' :: (s.data ++ '"' :: [']']) := by
        simp [List.append_assoc]
      rw [hin]
      rw [show parseItemsGo ('"' :: (s.data ++ '"' :: [']'])) .start [] acc
          = parseItemsGo (s.data ++ '"' :: [']']) .inStr [] acc from by
        simp [parseItemsGo]]
      rw [parseItemsGo_inStr s.data hs [']'] [] acc]
      have hmk : String.mk (([] : List Char).reverse ++ s.data) = s := rfl
      rw [hmk]
      simp [parseItemsGo]
    | cons s' t' =>
      rw [itemsChars_cons_cons]
      have hin : (((('"' :: s.data) ++ ['"']) ++ [',', ' '] ++ itemsChars (s' :: t')) ++ [']']
            : List Char)
          = '"' :: (s.data ++ '"' :: (',' :: ' ' :: (itemsChars (s' :: t') ++ [']']))) := by
        simp [List.append_assoc]
      rw [hin]
      rw [show parseItemsGo
            ('"' :: (s.data ++ '"' :: (',' :: ' ' :: (itemsChars (s' :: t') ++ [']']))))
            .start [] acc
          = parseItemsGo (s.data ++ '"' :: (',' :: ' ' :: (itemsChars (s' :: t') ++ [']'])))
            .inStr [] acc from by
        simp [parseItemsGo]]
      rw [parseItemsGo_inStr s.data hs _ [] acc]
      have hmk : String.mk (([] : List Char).reverse ++ s.data) = s := rfl
      rw [hmk]
      rw [show parseItemsGo (',' :: ' ' :: (itemsChars (s' :: t') ++ [']'])) .sep0 []
            (s :: acc)
          = parseItemsGo (itemsChars (s' :: t') ++ [']']) .start [] (s :: acc) from by
        simp [parseItemsGo]]
      rw [ih (s :: acc) (by simp) htsafe]
      simp

theorem jsonDumpsStrList_data (l : List String) :
    (jsonDumpsStrList l).data = '[' :: (itemsChars l ++ [']']) := rfl

theorem itemsChars_cons_shape (s : String) (t : List String) :
    ∃ rest, itemsChars (s :: t) = '"' :: rest := by
  cases t with
  | nil => exact ⟨s.data ++ ['"'], by rw [itemsChars_singleton]; simp⟩
  | cons s' t' =>
    exact ⟨(s.data ++ ['"']) ++ [',', ' '] ++ itemsChars (s' :: t'), by
      rw [itemsChars_cons_cons]; simp [List.append_assoc]⟩

theorem parseJsonList_dumps (l : List String)
    (hsafe : ∀ s ∈ l, ∀ c ∈ s.data, ¬ c = '"') :
    parseJsonList (jsonDumpsStrList l).data = some l := by
  cases l with
  | nil => rfl
  | cons s t =>
    rw [jsonDumpsStrList_data]
    obtain ⟨rest, hrest⟩ := itemsChars_cons_shape s t
    unfold parseJsonList
    have h1 : ('[' :: (itemsChars (s :: t) ++ [']'])).head? = some '[' := by rfl
    rw [if_pos h1]
    rw [show List.drop 1 ('[' :: (itemsChars (s :: t) ++ [']']))
        = itemsChars (s :: t) ++ [']'] from rfl]
    rw [if_neg (by rw [hrest]; simp)]
    rw [parseItemsGo_items (s :: t) [] (by simp) hsafe]
    simp

theorem parseJsonInt_of_head_nondigit {v : List Char} {c : Char}
    (hh : v.head? = some c) (hm : c ≠ '-') (hd : c.isDigit = false) (h0 : c ≠ '0') :
    parseJsonInt v = none := by
  cases v with
  | nil => cases hh
  | cons a t =>
    have ha : a = c := Option.some.inj hh
    subst ha
    unfold parseJsonInt
    rw [if_neg (by simp [hm])]
    unfold parseJsonNat
    rw [if_neg (by simp)]
    rw [if_neg (by simp [h0])]
    rw [if_neg (by simp [h0])]
    rw [if_neg (by simp [List.all_cons, hd])]
    rfl

theorem parseTfValue_list (l : List String)
    (hsafe : ∀ s ∈ l, ∀ c ∈ s.data, ¬ c = '"') :
    parseTfValue (jsonDumpsStrList l).data = .list l := by
  have hh : (jsonDumpsStrList l).data.head? = some '[' := by
    rw [jsonDumpsStrList_data]; rfl
  unfold parseTfValue
  rw [if_neg (isQuoted_eq_false_of_head hh (by decide)),
    if_neg (ne_true_data_of_head hh (by decide)),
    if_neg (ne_false_data_of_head hh (by decide)),
    parseJsonInt_of_head_nondigit hh (by decide) (by decide) (by decide),
    parseJsonList_dumps l hsafe]

/-! #### Round-trip facts: line processing -/

/-- Processing a generated `key<pad> = <value>` line: stripping is the
identity, the first `'='` splits key from value, and the dispatched result is
`applyKey` on the parsed value. -/
theorem processLine_keyval (c : DeploymentConfig) (raw : String) (kp V : List Char)
    (key : String)
    (hdecomp : raw.data = kp ++ '=' :: ' ' :: V)
    (hkey : stripChars kp = key.data)
    (hkp0 : kp ≠ [])
    (hkph : ∀ c0, kp.head? = some c0 → isPySpace c0 = false ∧ ¬ c0 = '#')
    (hkpe : '=' ∉ kp)
    (hV0 : V ≠ [])
    (hVh : ∀ c0, V.head? = some c0 → isPySpace c0 = false)
    (hVl : ∀ c0, V.getLast? = some c0 → isPySpace c0 = false ∧ (c0 == ',') = false) :
    processLine c raw = applyKey c key (parseTfValue V) := by
  obtain ⟨k0, kt, rfl⟩ := List.exists_cons_of_ne_nil hkp0
  have hk0 := hkph k0 rfl
  have hhead : ((k0 :: kt) ++ '=' :: ' ' :: V).head? = some k0 := rfl
  have hlast : ((k0 :: kt) ++ '=' :: ' ' :: V).getLast? = V.getLast? := by
    rw [List.getLast?_append_cons,
      show ('=' :: ' ' :: V) = ['=', ' '] ++ V from rfl,
      List.getLast?_append_of_ne_nil _ hV0]
  have hstrip : stripChars ((k0 :: kt) ++ '=' :: ' ' :: V) = (k0 :: kt) ++ '=' :: ' ' :: V := by
    apply stripChars_eq_self
    · intro c0 hc0
      rw [hhead] at hc0
      exact (Option.some.inj hc0) ▸ hk0.1
    · intro c0 hc0
      rw [hlast] at hc0
      exact (hVl c0 hc0).1
  have hstripV : stripChars V = V := by
    apply stripChars_eq_self
    · exact hVh
    · exact fun c0 hc0 => (hVl c0 hc0).1
  have hrstrip : rstripCommas V = V :=
    rstripCommas_eq_self V (fun c0 hc0 => (hVl c0 hc0).2)
  have hany : ((k0 :: kt) ++ '=' :: ' ' :: V).any (fun ch => ch = '=') = true := by
    rw [List.any_eq_true]
    exact ⟨'=', by simp, by simp⟩
  simp only [processLine, hdecomp, hstrip]
  rw [if_neg (by simp)]
  rw [if_neg (by
    rw [hhead]
    intro he
    exact hk0.2 (Option.some.inj he))]
  rw [if_neg (by rw [hany]; simp)]
  rw [show ((k0 :: kt) ++ '=' :: ' ' :: V) = (k0 :: kt) ++ '=' :: (' ' :: V) from rfl,
    splitFirstEq_append _ _ hkpe]
  rw [show (((k0 :: kt), (' ' :: V)).1 : List Char) = k0 :: kt from rfl,
    show (((k0 :: kt), (' ' :: V)).2 : List Char) = ' ' :: V from rfl]
  rw [hkey, stripChars_cons_space, hstripV, hrstrip]

theorem mem_of_getLast?_eq : ∀ {l : List Char} {a : Char}, l.getLast? = some a → a ∈ l
  | [], _, h => by cases h
  | [b], a, h => by
    have hb : b = a := Option.some.inj h
    exact hb ▸ List.mem_cons_self b []
  | b :: c :: t, a, h => by
    rw [List.getLast?_cons_cons] at h
    exact List.mem_cons_of_mem _ (mem_of_getLast?_eq h)

theorem isPySpace_eq_false_of_isDigit (c : Char) (h : c.isDigit = true) :
    isPySpace c = false := by
  by_contra hsp
  rw [Bool.not_eq_false] at hsp
  unfold isPySpace at hsp
  simp only [Bool.or_eq_true, decide_eq_true_eq] at hsp
  rcases hsp with ((((rfl | rfl) | rfl) | rfl) | rfl) | rfl <;> cases h

/-- Decidable side conditions on the `key` + padding prefix of a generated
line: non-empty, its first character is neither whitespace nor `'#'`, and it
contains no `'='`. -/
def kpOk (kp : List Char) : Bool :=
  !kp.isEmpty &&
  kp.head?.all (fun c0 => !isPySpace c0 && !(c0 = '#')) &&
  !kp.any (fun ch => ch = '=')

theorem kpOk_facts (kp : List Char) (h : kpOk kp = true) :
    kp ≠ [] ∧ (∀ c0, kp.head? = some c0 → isPySpace c0 = false ∧ ¬ c0 = '#')
      ∧ '=' ∉ kp := by
  unfold kpOk at h
  simp only [Bool.and_eq_true, Bool.not_eq_true'] at h
  refine ⟨?_, ?_, ?_⟩
  · intro he
    rw [he] at h
    exact absurd h.1.1 (by decide)
  · intro c0 hc0
    have := h.1.2
    rw [hc0] at this
    simp only [Option.all_some, Bool.and_eq_true, Bool.not_eq_true',
      decide_eq_false_iff_not] at this
    exact this
  · intro hm
    have := h.2
    rw [List.any_eq_false] at this
    exact absurd (by simp : (('=' : Char) = '=' : Bool) = true) (by simpa using this '=' hm)

/-- A generated quoted-string line `key<pad> = "<s>"`. -/
theorem processLine_quoted_line (c : DeploymentConfig) (pre : String)
    (kp : List Char) (key s : String)
    (hpre : pre.data = kp ++ ['=', ' ', '"'])
    (hkey : stripChars kp = key.data)
    (hok : kpOk kp = true) :
    processLine c (pre ++ s ++ "\"") = applyKey c key (.str s) := by
  obtain ⟨hkp0, hkph, hkpe⟩ := kpOk_facts kp hok
  rw [processLine_keyval c (pre ++ s ++ "\"") kp (('"' :: s.data) ++ ['"']) key
    (by
      rw [str_append_data, str_append_data, hpre]
      simp [List.append_assoc])
    hkey hkp0 hkph hkpe (by simp)
    (by intro c0 hc0; cases Option.some.inj hc0; decide)
    (by
      intro c0 hc0
      rw [List.getLast?_concat] at hc0
      cases Option.some.inj hc0
      exact ⟨rfl, rfl⟩)]
  rw [parseTfValue_quoted]

/-- A generated integer line `key<pad> = <n>`. -/
theorem processLine_int_line (c : DeploymentConfig) (pre : String)
    (kp : List Char) (key : String) (n : Int)
    (hpre : pre.data = kp ++ ['=', ' '])
    (hkey : stripChars kp = key.data)
    (hok : kpOk kp = true) :
    processLine c (pre ++ pyIntRepr n) = applyKey c key (.int n) := by
  obtain ⟨hkp0, hkph, hkpe⟩ := kpOk_facts kp hok
  obtain ⟨ch, hch, hckind⟩ := pyIntRepr_head n
  have hlastd : ∀ c0, (pyIntRepr n).data.getLast? = some c0 → c0.isDigit = true := by
    intro c0 hc0
    by_cases hneg : n < 0
    · rw [pyIntRepr_data_neg n hneg,
        show ('-' :: natRepr n.natAbs) = ['-'] ++ natRepr n.natAbs from rfl,
        List.getLast?_append_of_ne_nil _ (natRepr_ne_nil _)] at hc0
      exact natRepr_digits _ c0 (mem_of_getLast?_eq hc0)
    · rw [pyIntRepr_data_nonneg n (by omega)] at hc0
      exact natRepr_digits _ c0 (mem_of_getLast?_eq hc0)
  rw [processLine_keyval c (pre ++ pyIntRepr n) kp (pyIntRepr n).data key
    (by rw [str_append_data, hpre]; simp [List.append_assoc])
    hkey hkp0 hkph hkpe
    (by
      intro he
      rw [he] at hch
      cases hch)
    (by
      intro c0 hc0
      rw [hch] at hc0
      cases Option.some.inj hc0
      rcases hckind with h | h
      · exact isPySpace_eq_false_of_isDigit _ h
      · subst h; rfl)
    (by
      intro c0 hc0
      have hd := hlastd c0 hc0
      exact ⟨isPySpace_eq_false_of_isDigit _ hd,
        by simpa using ne_of_isDigit hd (by decide)⟩)]
  rw [parseTfValue_int]

/-- A generated boolean line `key<pad> = true|false`. -/
theorem processLine_bool_line (c : DeploymentConfig) (pre : String)
    (kp : List Char) (key : String) (b : Bool)
    (hpre : pre.data = kp ++ ['=', ' '])
    (hkey : stripChars kp = key.data)
    (hok : kpOk kp = true) :
    processLine c (pre ++ pyBoolTf b) = applyKey c key (.bool b) := by
  obtain ⟨hkp0, hkph, hkpe⟩ := kpOk_facts kp hok
  cases b with
  | true =>
    rw [processLine_keyval c _ kp (pyBoolTf true).data key
      (by rw [str_append_data, hpre]; simp [List.append_assoc, pyBoolTf])
      hkey hkp0 hkph hkpe (by decide)
      (by intro c0 hc0; cases Option.some.inj hc0; decide)
      (by intro c0 hc0; cases Option.some.inj hc0; decide)]
    rw [parseTfValue_bool]
  | false =>
    rw [processLine_keyval c _ kp (pyBoolTf false).data key
      (by rw [str_append_data, hpre]; simp [List.append_assoc, pyBoolTf])
      hkey hkp0 hkph hkpe (by decide)
      (by intro c0 hc0; cases Option.some.inj hc0; decide)
      (by intro c0 hc0; cases Option.some.inj hc0; decide)]
    rw [parseTfValue_bool]

/-- A generated list line `key<pad> = ["a", "b"]`. -/
theorem processLine_list_line (c : DeploymentConfig) (pre : String)
    (kp : List Char) (key : String) (l : List String)
    (hpre : pre.data = kp ++ ['=', ' '])
    (hkey : stripChars kp = key.data)
    (hok : kpOk kp = true)
    (hsafe : ∀ s ∈ l, ∀ ch ∈ s.data, ¬ ch = '"') :
    processLine c (pre ++ jsonDumpsStrList l) = applyKey c key (.list l) := by
  obtain ⟨hkp0, hkph, hkpe⟩ := kpOk_facts kp hok
  rw [processLine_keyval c _ kp (jsonDumpsStrList l).data key
    (by rw [str_append_data, hpre]; simp [List.append_assoc])
    hkey hkp0 hkph hkpe
    (by rw [jsonDumpsStrList_data]; simp)
    (by
      intro c0 hc0
      rw [jsonDumpsStrList_data] at hc0
      cases Option.some.inj hc0
      decide)
    (by
      intro c0 hc0
      rw [jsonDumpsStrList_data,
        show ('[' :: (itemsChars l ++ [']'])) = ('[' :: itemsChars l) ++ [']'] from by simp,
        List.getLast?_concat] at hc0
      cases Option.some.inj hc0
      exact ⟨rfl, rfl⟩)]
  rw [parseTfValue_list l hsafe]

/-! #### Round-trip facts: splitting the written content back into lines -/

/-- Characters Python's `splitlines` treats as line breaks. -/
def isLineBreak (c : Char) : Bool :=
  c = '\n' || c = '\r' || c = '\x0b' || c = '\x0c' ||
  c.toNat = 0x1c || c.toNat = 0x1d || c.toNat = 0x1e || c.toNat = 0x85 ||
  c.toNat = 0x2028 || c.toNat = 0x2029

/-- A string that stays on one line of the generated file. -/
def lineSafe (s : String) : Bool := s.data.all (fun c => !isLineBreak c)

/-- An instance-type entry that `json.dumps` serializes without escape
sequences: printable ASCII, no quote, no backslash. -/
def entrySafe (s : String) : Bool :=
  s.data.all (fun c => 32 ≤ c.toNat && c.toNat ≤ 126 && !(c = '"') && !(c = '\\'))

theorem lineSafe_no_nl {s : String} (h : lineSafe s = true) : '\n' ∉ s.data := by
  intro hm
  have h2 := List.all_eq_true.mp h _ hm
  rw [show isLineBreak '\n' = true from rfl] at h2
  cases h2

theorem entrySafe_no_quote {s : String} (h : entrySafe s = true) :
    ∀ ch ∈ s.data, ¬ ch = '"' := by
  intro ch hm he
  have h2 := List.all_eq_true.mp h _ hm
  subst he
  rw [show ((32 ≤ ('"' : Char).toNat && ('"' : Char).toNat ≤ 126 &&
      !(('"' : Char) = '"') && !(('"' : Char) = '\\')) : Bool) = false from rfl] at h2
  cases h2

theorem entrySafe_no_nl {s : String} (h : entrySafe s = true) : '\n' ∉ s.data := by
  intro hm
  have h2 := List.all_eq_true.mp h _ hm
  rw [show ((32 ≤ ('\n' : Char).toNat && ('\n' : Char).toNat ≤ 126 &&
      !(('\n' : Char) = '"') && !(('\n' : Char) = '\\')) : Bool) = false from rfl] at h2
  cases h2

theorem no_nl_append {a b : String} (ha : '\n' ∉ a.data) (hb : '\n' ∉ b.data) :
    '\n' ∉ (a ++ b).data := by
  intro hm
  rcases List.mem_append.mp (by rwa [str_append_data] at hm) with h | h
  exacts [ha h, hb h]

theorem nl_not_mem_pyIntRepr (n : Int) : '\n' ∉ (pyIntRepr n).data := by
  intro hm
  by_cases hneg : n < 0
  · rw [pyIntRepr_data_neg n hneg] at hm
    rcases List.mem_cons.mp hm with he | hmem
    · cases he
    · exact absurd (natRepr_digits _ _ hmem) (by decide)
  · rw [pyIntRepr_data_nonneg n (by omega)] at hm
    exact absurd (natRepr_digits _ _ hm) (by decide)

theorem nl_not_mem_pyBoolTf (b : Bool) : '\n' ∉ (pyBoolTf b).data := by
  cases b <;> decide

theorem nl_not_mem_itemsChars :
    ∀ l : List String, (∀ s ∈ l, entrySafe s = true) → '\n' ∉ itemsChars l := by
  intro l
  induction l with
  | nil => intro _ hm; cases hm
  | cons s t ih =>
    intro hsafe hm
    have hs := hsafe s (List.mem_cons_self s t)
    have ht : ∀ x ∈ t, entrySafe x = true :=
      fun x hx => hsafe x (List.mem_cons_of_mem s hx)
    cases t with
    | nil =>
      rw [itemsChars_singleton] at hm
      rcases List.mem_append.mp hm with h | h
      · rcases List.mem_cons.mp h with he | h2
        · cases he
        · exact entrySafe_no_nl hs h2
      · cases List.mem_singleton.mp h
    | cons s' t' =>
      rw [itemsChars_cons_cons] at hm
      rcases List.mem_append.mp hm with h | h
      · rcases List.mem_append.mp h with h2 | h2
        · rcases List.mem_append.mp h2 with h3 | h3
          · rcases List.mem_cons.mp h3 with he | h4
            · cases he
            · exact entrySafe_no_nl hs h4
          · cases List.mem_singleton.mp h3
        · rcases List.mem_cons.mp h2 with he | h3
          · cases he
          · cases List.mem_singleton.mp h3
      · exact ih ht h

theorem nl_not_mem_dumps (l : List String) (hsafe : ∀ s ∈ l, entrySafe s = true) :
    '\n' ∉ (jsonDumpsStrList l).data := by
  rw [jsonDumpsStrList_data]
  intro hm
  rcases List.mem_cons.mp hm with he | h
  · cases he
  · rcases List.mem_append.mp h with h2 | h2
    · exact nl_not_mem_itemsChars l hsafe h2
    · cases List.mem_singleton.mp h2

theorem splitLines_joinWith (ls : List String) (hls : ls ≠ [])
    (h : ∀ l ∈ ls, '\n' ∉ l.data) :
    splitLines (joinWith ['\n'] ls) = ls := by
  unfold splitLines joinWith
  rw [show (String.mk (List.intercalate ['\n'] (ls.map String.data))).data
      = List.intercalate ['\n'] (ls.map String.data) from rfl]
  rw [List.splitOn_intercalate (ls.map String.data) '\n'
    (by
      intro l hl
      rw [List.mem_map] at hl
      obtain ⟨s, hs, rfl⟩ := hl
      exact h s hs)
    (by simp [hls])]
  rw [List.map_map]
  have hid : (String.mk ∘ String.data) = id := funext (fun s => rfl)
  rw [hid, List.map_id]

/-! #### Round-trip: folding the loader over the generated lines -/

theorem foldlM_tfvarsLines (c : DeploymentConfig) (p r : String)
    (hp : c.aws_profile = some p) (hr : c.aws_region = some r)
    (hlist : ∀ s ∈ c.node_instance_types, ∀ ch ∈ s.data, ¬ ch = '"') :
    (tfvarsLines c).foldlM processLine ({} : DeploymentConfig) =
      .ok { aws_profile := some p, aws_region := some r,
            cluster_name := c.cluster_name,
            node_instance_types := c.node_instance_types,
            node_desired_size := c.node_desired_size,
            node_min_size := c.node_min_size,
            node_max_size := c.node_max_size,
            n8n_namespace := c.n8n_namespace,
            n8n_host := c.n8n_host,
            timezone := c.timezone,
            n8n_encryption_key := c.n8n_encryption_key,
            n8n_persistence_size := c.n8n_persistence_size,
            enable_nginx_ingress := c.enable_nginx_ingress } := by
  have hbind : ∀ (a : DeploymentConfig) (f : DeploymentConfig → Except String DeploymentConfig),
      ((Except.ok a : Except String DeploymentConfig) >>= f) = f a := fun _ _ => rfl
  have hL_c1 : ∀ acc : DeploymentConfig,
      processLine acc "# Auto-generated by setup.py - N8N EKS Infrastructure" = .ok acc :=
    fun _ => rfl
  have hL_c2 : ∀ acc : DeploymentConfig,
      processLine acc "# Database Configuration" = .ok acc := fun _ => rfl
  have hL_c3 : ∀ acc : DeploymentConfig,
      processLine acc "# Basic Authentication Configuration" = .ok acc := fun _ => rfl
  have hL_empty : ∀ acc : DeploymentConfig, processLine acc "" = .ok acc := fun _ => rfl
  have hL_profile : ∀ (acc : DeploymentConfig) (s : String),
      processLine acc ("aws_profile        = \"" ++ s ++ "\"")
        = .ok { acc with aws_profile := some s } := by
    intro acc s
    rw [processLine_quoted_line acc "aws_profile        = \"" ("aws_profile        ".data) "aws_profile" s rfl rfl rfl]
    rfl
  have hL_region : ∀ (acc : DeploymentConfig) (s : String),
      processLine acc ("region             = \"" ++ s ++ "\"")
        = .ok { acc with aws_region := some s } := by
    intro acc s
    rw [processLine_quoted_line acc "region             = \"" ("region             ".data) "region" s rfl rfl rfl]
    rfl
  have hL_cluster : ∀ (acc : DeploymentConfig) (s : String),
      processLine acc ("cluster_name       = \"" ++ s ++ "\"")
        = .ok { acc with cluster_name := s } := by
    intro acc s
    rw [processLine_quoted_line acc "cluster_name       = \"" ("cluster_name       ".data) "cluster_name" s rfl rfl rfl]
    rfl
  have hL_types : ∀ acc : DeploymentConfig,
      processLine acc ("node_instance_types = " ++ jsonDumpsStrList c.node_instance_types)
        = .ok { acc with node_instance_types := c.node_instance_types } := by
    intro acc
    rw [processLine_list_line acc "node_instance_types = " ("node_instance_types ".data) "node_instance_types"
      c.node_instance_types rfl rfl rfl hlist]
    rfl
  have hL_desired : ∀ (acc : DeploymentConfig) (n : Int),
      processLine acc ("node_desired_size  = " ++ pyIntRepr n)
        = .ok { acc with node_desired_size := n } := by
    intro acc n
    rw [processLine_int_line acc "node_desired_size  = " ("node_desired_size  ".data) "node_desired_size" n rfl rfl rfl]
    rfl
  have hL_min : ∀ (acc : DeploymentConfig) (n : Int),
      processLine acc ("node_min_size      = " ++ pyIntRepr n)
        = .ok { acc with node_min_size := n } := by
    intro acc n
    rw [processLine_int_line acc "node_min_size      = " ("node_min_size      ".data) "node_min_size" n rfl rfl rfl]
    rfl
  have hL_max : ∀ (acc : DeploymentConfig) (n : Int),
      processLine acc ("node_max_size      = " ++ pyIntRepr n)
        = .ok { acc with node_max_size := n } := by
    intro acc n
    rw [processLine_int_line acc "node_max_size      = " ("node_max_size      ".data) "node_max_size" n rfl rfl rfl]
    rfl
  have hL_host : ∀ (acc : DeploymentConfig) (s : String),
      processLine acc ("n8n_host           = \"" ++ s ++ "\"")
        = .ok { acc with n8n_host := s } := by
    intro acc s
    rw [processLine_quoted_line acc "n8n_host           = \"" ("n8n_host           ".data) "n8n_host" s rfl rfl rfl]
    rfl
  have hL_tz : ∀ (acc : DeploymentConfig) (s : String),
      processLine acc ("timezone           = \"" ++ s ++ "\"")
        = .ok { acc with timezone := s } := by
    intro acc s
    rw [processLine_quoted_line acc "timezone           = \"" ("timezone           ".data) "timezone" s rfl rfl rfl]
    rfl
  have hL_enc : ∀ (acc : DeploymentConfig) (s : String),
      processLine acc ("n8n_encryption_key = \"" ++ s ++ "\"")
        = .ok { acc with n8n_encryption_key := s } := by
    intro acc s
    rw [processLine_quoted_line acc "n8n_encryption_key = \"" ("n8n_encryption_key ".data) "n8n_encryption_key" s rfl rfl rfl]
    rfl
  have hL_ns : ∀ (acc : DeploymentConfig) (s : String),
      processLine acc ("n8n_namespace      = \"" ++ s ++ "\"")
        = .ok { acc with n8n_namespace := s } := by
    intro acc s
    rw [processLine_quoted_line acc "n8n_namespace      = \"" ("n8n_namespace      ".data) "n8n_namespace" s rfl rfl rfl]
    rfl
  have hL_ps : ∀ (acc : DeploymentConfig) (s : String),
      processLine acc ("n8n_persistence_size = \"" ++ s ++ "\"")
        = .ok { acc with n8n_persistence_size := s } := by
    intro acc s
    rw [processLine_quoted_line acc "n8n_persistence_size = \"" ("n8n_persistence_size ".data) "n8n_persistence_size" s rfl rfl rfl]
    rfl
  have hL_nginx : ∀ (acc : DeploymentConfig) (b : Bool),
      processLine acc ("enable_nginx_ingress = " ++ pyBoolTf b)
        = .ok { acc with enable_nginx_ingress := b } := by
    intro acc b
    rw [processLine_bool_line acc "enable_nginx_ingress = " ("enable_nginx_ingress ".data) "enable_nginx_ingress" b rfl rfl rfl]
    cases b <;> rfl
  have hL_db : ∀ (acc : DeploymentConfig) (s : String),
      processLine acc ("database_type      = \"" ++ s ++ "\"") = .ok acc := by
    intro acc s
    rw [processLine_quoted_line acc "database_type      = \"" ("database_type      ".data) "database_type" s rfl rfl rfl]
    rfl
  have hL_rdsc : ∀ (acc : DeploymentConfig) (s : String),
      processLine acc ("rds_instance_class = \"" ++ s ++ "\"") = .ok acc := by
    intro acc s
    rw [processLine_quoted_line acc "rds_instance_class = \"" ("rds_instance_class ".data) "rds_instance_class" s rfl rfl rfl]
    rfl
  have hL_rdss : ∀ (acc : DeploymentConfig) (n : Int),
      processLine acc ("rds_allocated_storage = " ++ pyIntRepr n) = .ok acc := by
    intro acc n
    rw [processLine_int_line acc "rds_allocated_storage = " ("rds_allocated_storage ".data) "rds_allocated_storage" n rfl rfl rfl]
    rfl
  have hL_rdsm : ∀ (acc : DeploymentConfig) (b : Bool),
      processLine acc ("rds_multi_az       = " ++ pyBoolTf b) = .ok acc := by
    intro acc b
    rw [processLine_bool_line acc "rds_multi_az       = " ("rds_multi_az       ".data) "rds_multi_az" b rfl rfl rfl]
    cases b <;> rfl
  have hL_eba : ∀ (acc : DeploymentConfig) (b : Bool),
      processLine acc ("enable_basic_auth  = " ++ pyBoolTf b) = .ok acc := by
    intro acc b
    rw [processLine_bool_line acc "enable_basic_auth  = " ("enable_basic_auth  ".data) "enable_basic_auth" b rfl rfl rfl]
    cases b <;> rfl
  by_cases hdb : c.database_type = "postgresql" <;>
  · simp only [tfvarsLines, hp, hr, pyFmtOptStr, hdb, beq_self_eq_true, if_true,
      beq_iff_eq, if_false, List.cons_append, List.nil_append, List.append_nil,
      reduceIte, List.append_assoc, List.singleton_append]
    simp only [List.foldlM_cons, List.foldlM_nil, hL_c1, hL_c2, hL_c3, hL_empty,
      hL_profile, hL_region, hL_cluster, hL_types, hL_desired, hL_min, hL_max,
      hL_host, hL_tz, hL_enc, hL_ns, hL_ps, hL_nginx, hL_db, hL_rdsc, hL_rdss,
      hL_rdsm, hL_eba, hbind]
    rfl

/-- Writing a configuration whose `aws_profile` is `None` (its default value)
and loading the file back yields `aws_profile = "None"` — the f-string
stringifies `None` — so the write/load round-trip fails as universally
stated. (counterexample to C10) -/
theorem tfvars_roundtrip_counterexample :
    (load_existing_configuration
        (tfvarsContent { n8n_host := "n8n.example.com" })).toOption.map
      (fun c => c.aws_profile) = some (some "None")
    ∧ ({ n8n_host := "n8n.example.com" } : DeploymentConfig).aws_profile = none :=
  ⟨rfl, rfl⟩

/-- Amended C10: when `aws_profile` and `aws_region` are set, every persisted
string field is free of line-break characters, and each instance-type entry
is escape-free printable ASCII, `create_terraform_tfvars` followed by
`load_existing_configuration` restores all persisted fields; with an empty
`n8n_host` loading raises instead. -/
theorem tfvars_roundtrip_amended (c : DeploymentConfig) (p r : String)
    (hp : c.aws_profile = some p) (hr : c.aws_region = some r)
    (h1 : lineSafe p = true) (h2 : lineSafe r = true)
    (h3 : lineSafe c.cluster_name = true) (h4 : lineSafe c.n8n_host = true)
    (h5 : lineSafe c.timezone = true) (h6 : lineSafe c.n8n_encryption_key = true)
    (h7 : lineSafe c.n8n_namespace = true) (h8 : lineSafe c.n8n_persistence_size = true)
    (h9 : lineSafe c.database_type = true) (h10 : lineSafe c.rds_instance_class = true)
    (h11 : ∀ s ∈ c.node_instance_types, entrySafe s = true) :
    (c.n8n_host ≠ "" →
      ∃ c', load_existing_configuration (tfvarsContent c) = .ok c' ∧
        c'.aws_profile = some p ∧ c'.aws_region = some r ∧
        c'.cluster_name = c.cluster_name ∧
        c'.node_instance_types = c.node_instance_types ∧
        c'.node_desired_size = c.node_desired_size ∧
        c'.node_min_size = c.node_min_size ∧
        c'.node_max_size = c.node_max_size ∧
        c'.n8n_host = c.n8n_host ∧
        c'.timezone = c.timezone ∧
        c'.n8n_encryption_key = c.n8n_encryption_key ∧
        c'.n8n_namespace = c.n8n_namespace ∧
        c'.n8n_persistence_size = c.n8n_persistence_size ∧
        c'.enable_nginx_ingress = c.enable_nginx_ingress)
    ∧ (c.n8n_host = "" →
      load_existing_configuration (tfvarsContent c)
        = .error "n8n_host is missing in terraform.tfvars") := by
  have hnl : ∀ line ∈ tfvarsLines c, '\n' ∉ line.data := by
    intro line hline
    by_cases hdb : c.database_type = "postgresql" <;>
    · simp only [tfvarsLines, hdb, hp, hr, pyFmtOptStr, beq_self_eq_true, if_true,
        beq_iff_eq, reduceIte, List.mem_append, List.mem_cons,
        List.not_mem_nil, or_false, List.cons_append, List.nil_append] at hline
      rcases hline with rfl | rfl | rfl | rfl | rfl | rfl | rfl | rfl | rfl | rfl
        | rfl | rfl | rfl | rfl | rfl | rfl | rfl | rfl | rfl | rfl | rfl | rfl
        | rfl | rfl <;>
      first
      | decide
      | exact no_nl_append (no_nl_append (by decide) (lineSafe_no_nl h1)) (by decide)
      | exact no_nl_append (no_nl_append (by decide) (lineSafe_no_nl h2)) (by decide)
      | exact no_nl_append (no_nl_append (by decide) (lineSafe_no_nl h3)) (by decide)
      | exact no_nl_append (no_nl_append (by decide) (lineSafe_no_nl h4)) (by decide)
      | exact no_nl_append (no_nl_append (by decide) (lineSafe_no_nl h5)) (by decide)
      | exact no_nl_append (no_nl_append (by decide) (lineSafe_no_nl h6)) (by decide)
      | exact no_nl_append (no_nl_append (by decide) (lineSafe_no_nl h7)) (by decide)
      | exact no_nl_append (no_nl_append (by decide) (lineSafe_no_nl h8)) (by decide)
      | exact no_nl_append (no_nl_append (by decide) (lineSafe_no_nl h9)) (by decide)
      | exact no_nl_append (no_nl_append (by decide) (lineSafe_no_nl h10)) (by decide)
      | exact no_nl_append (by decide) (nl_not_mem_pyIntRepr _)
      | exact no_nl_append (by decide) (nl_not_mem_pyBoolTf _)
      | exact no_nl_append (by decide) (nl_not_mem_dumps _ h11)
  have hsplit : splitLines (tfvarsContent c) = tfvarsLines c := by
    apply splitLines_joinWith _ _ hnl
    by_cases hdb : c.database_type = "postgresql" <;> simp [tfvarsLines, hdb]
  have hfold := foldlM_tfvarsLines c p r hp hr
    (fun s hs => entrySafe_no_quote (h11 s hs))
  have hload : load_existing_configuration (tfvarsContent c)
      = if c.n8n_host = "" then .error "n8n_host is missing in terraform.tfvars"
        else .ok
          { aws_profile := some p, aws_region := some r,
            cluster_name := c.cluster_name,
            node_instance_types := c.node_instance_types,
            node_desired_size := c.node_desired_size,
            node_min_size := c.node_min_size,
            node_max_size := c.node_max_size,
            n8n_namespace := c.n8n_namespace,
            n8n_host := c.n8n_host,
            timezone := c.timezone,
            n8n_encryption_key := c.n8n_encryption_key,
            n8n_persistence_size := c.n8n_persistence_size,
            enable_nginx_ingress := c.enable_nginx_ingress } := by
    unfold load_existing_configuration
    rw [hsplit, hfold]
  constructor
  · intro hne
    rw [hload, if_neg hne]
    exact ⟨_, rfl, rfl, rfl, rfl, rfl, rfl, rfl, rfl, rfl, rfl, rfl, rfl, rfl, rfl⟩
  · intro he
    rw [hload, if_pos he]

/-- Witness for the amended C10 at a fully concrete configuration. -/
theorem tfvars_roundtrip_amended_witness :
    ∃ c', load_existing_configuration (tfvarsContent
        { aws_profile := some "prod", aws_region := some "us-east-1",
          n8n_host := "n8n.example.com",
          node_instance_types := ["t3.medium", "m5.large"],
          database_type := "postgresql" }) = .ok c'
      ∧ c'.aws_profile = some "prod"
      ∧ c'.node_instance_types = ["t3.medium", "m5.large"]
      ∧ c'.n8n_host = "n8n.example.com" := by
  have h := tfvars_roundtrip_amended
    { aws_profile := some "prod", aws_region := some "us-east-1",
      n8n_host := "n8n.example.com",
      node_instance_types := ["t3.medium", "m5.large"],
      database_type := "postgresql" }
    "prod" "us-east-1" rfl rfl
    (by decide) (by decide) (by decide) (by decide) (by decide) (by decide)
    (by decide) (by decide) (by decide) (by decide) (by decide)
  obtain ⟨c', hc', hf⟩ := h.1 (by decide)
  exact ⟨c', hc', hf.1, hf.2.2.2.1, hf.2.2.2.2.2.2.2.1⟩

end N8n
